import Mathlib

/-!
Verification of the `DCOLock` sale/vesting ledger (Solidity contract in this
repository) against its natural-language specification.

The contract state and every entry point relevant to the claims are embedded
shallowly: `uint256` values become `Nat` with explicit bound checks mirroring
Solidity 0.8 checked arithmetic (which reverts on overflow and underflow),
addresses become `Nat` with `0` standing for the zero address, and each
external call is a function from a current block timestamp and a pre-state to
either a typed revert or a post-state together with the list of emitted
events.  A revert aborts the whole call, so a call that fails produces no
state: the caller keeps the pre-state (EVM transactional semantics).  For the
two entry points whose internal statement order matters to the claims
(`releaseZKTC` and `withdraw`) the embedding first defines a raw, sequenced
version that exposes the storage as mutated up to the failure point, and the
public function is the transactional wrapper over it.

Modelling conventions, fixed across the file:
 * `zkBalance` is `zkToken.balanceOf(address(this))`; `injectSupply` grows it
   and every `safeTransfer` out shrinks it (failing if the balance is short).
 * Role checks (`onlyOwner`, `onlyRole`) are modifiers that run before the
   function body and touch no ledger state; callers are assumed authorized,
   so the modelled behaviour is that of an authorized caller.
 * `addReleaser` / `removeReleaser` / `setWalletSupplier` only mutate the
   OpenZeppelin `AccessControl` bookkeeping, never the ledger state, and are
   not modelled.
 * Event logs of a reverted call are discarded, so raw executions report an
   empty event list alongside an error.
-/

namespace DCO

/-- Largest value representable in a `uint256`. -/
def MAXU : Nat := 2 ^ 256 - 1

/-- Token decimal scaling factor, `10 ** 18` in the source. -/
def SCALE : Nat := 10 ^ 18

/-- Typed reverts: the custom errors of the contract that some modelled path
can raise, the Solidity 0.8 arithmetic panics, an ERC20 transfer failure, and
gas exhaustion (the abort of a loop that fails to progress). -/
inductive SolError where
  | TokenPriceMustBeGreaterThanZero
  | AmountMustBeGreaterThanZero
  | NoTokensRemaining
  | InsufficientBalance
  | NoBalanceToWithdraw
  | InsufficientTokens
  | DCONotActive
  | InvalidAddress
  | NoDonationsMade
  | NoTokensToWithdraw
  | SevenMonthReleaseNotAvailable
  | OneYearReleaseNotAvailable
  | InvalidTokenPrice
  | CannotWithdrawBeforeGlobalRelease
  | InvalidIncrementThreshold
  | InvalidWalletAddress
  | InvalidAmount
  | OverflowDetected
  | UnderflowDetected
  | panicOverflow
  | panicUnderflow
  | panicDivByZero
  | erc20InsufficientBalance
  | outOfGas
  deriving DecidableEq, Repr

/-- Events emitted by the modelled entry points.  `transfer` records a token
movement out of the contract (`zkToken.safeTransfer`).  The source declares
two overloaded `TokensWithdrawn` events; they are split here into the
owner-side and the user-side variant. -/
inductive Event where
  | TokenPriceUpdated (oldPrice newPrice : Nat)
  | TokensInjected (amount newRemaining : Nat)
  | DCOEndTimeUpdated (oldTime newTime : Nat)
  | TokensReleased (buyer amount timestamp : Nat)
  | DonationMade (buyer amount timestamp : Nat)
  | ZCWDonated (amount timestamp : Nat)
  | PriceThresholdUpdated (newThreshold tokenPrice : Nat)
  | TokensLocked (user amount lockTimestamp : Nat)
  | TokensWithdrawnOwner (owner amount : Nat)
  | TokensWithdrawnUser (user amount releaseType : Nat)
  | TimePeriodsSet (sevenMonthsTime oneYearTime : Nat)
  | transfer (dst amount : Nat)
  deriving DecidableEq, Repr

/-- Checked `uint256` addition: Solidity 0.8 reverts past `2^256 - 1`. -/
def cadd (a b : Nat) : Except SolError Nat :=
  if a + b ≤ MAXU then .ok (a + b) else .error .panicOverflow

/-- Checked `uint256` subtraction: Solidity 0.8 reverts below zero. -/
def csub (a b : Nat) : Except SolError Nat :=
  if b ≤ a then .ok (a - b) else .error .panicUnderflow

/-- Checked `uint256` multiplication. -/
def cmul (a b : Nat) : Except SolError Nat :=
  if a * b ≤ MAXU then .ok (a * b) else .error .panicOverflow

/-- Checked `uint256` division: division by zero is a panic. -/
def cdiv (a b : Nat) : Except SolError Nat :=
  if b = 0 then .error .panicDivByZero else .ok (a / b)

/-- The `LockedTokens` struct of the contract. -/
structure LockedTokens where
  totalAmount : Nat
  sevenMonthAmount : Nat
  oneYearAmount : Nat
  sevenMonthClaimed : Nat
  oneYearClaimed : Nat
  lockTimestamp : Nat
  deriving DecidableEq, Repr

/-- Default value of a mapping entry: the all-zero struct. -/
def emptyLock : LockedTokens := ⟨0, 0, 0, 0, 0, 0⟩

/-- The contract storage together with the external token balance held by the
contract address. -/
structure DCOState where
  tokenPrice : Nat
  tokenSold : Nat
  totalDonations : Nat
  totalUsdGathered : Nat
  incrementThreshold : Nat
  threshold : Nat
  DCO_END_TIME : Nat
  SEVEN_MONTHS : Nat
  ONE_YEAR : Nat
  owner : Nat
  ZCW : Nat
  btcAddress : String
  ethAddress : Nat
  solAddress : String
  zkBalance : Nat
  userLockedTokens : Nat → LockedTokens

/-- Write one entry of the `userLockedTokens` mapping. -/
def setLock (s : DCOState) (user : Nat) (L : LockedTokens) : DCOState :=
  { s with userLockedTokens := fun a => if a = user then L else s.userLockedTokens a }

/-- `getTotalLockedTokens`: the source returns `tokenSold` verbatim. -/
def getTotalLockedTokens (s : DCOState) : Nat := s.tokenSold

/-- `getAvailableForWithdrawal`: `balance - totalDonations - totalLocked`,
with each subtraction checked (lines 383-386). -/
def getAvailableForWithdrawal (s : DCOState) : Except SolError Nat :=
  match csub s.zkBalance s.totalDonations with
  | .error e => .error e
  | .ok a => csub a (getTotalLockedTokens s)

/-- State produced by `initialize(initialOwner, tokenPrice_, zktcAddress,
zcwAddress)` at block time `now` (lines 121-152).  The contract holds no
tokens at deployment, so the external balance starts at zero. -/
def initState (initialOwner tokenPrice_ zcwAddress now : Nat) : DCOState :=
  { tokenPrice := tokenPrice_
    tokenSold := 0
    totalDonations := 0
    totalUsdGathered := 0
    incrementThreshold := 37500
    threshold := 137500
    DCO_END_TIME := now + 101 * 86400
    SEVEN_MONTHS := now + 187 * 86400
    ONE_YEAR := now + 342 * 86400
    owner := initialOwner
    ZCW := zcwAddress
    btcAddress := ""
    ethAddress := 0
    solAddress := ""
    zkBalance := 0
    userLockedTokens := fun _ => emptyLock }

/-- One checkpoint block of the repricing loop (each of lines 347-352,
353-358 and 359-364 is this block with its own `target` price and `newInc`
constant): when the just-raised price equals the checkpoint value, undo the
threshold bump (`threshold -= incrementThreshold`), install the new increment
and re-apply it (`threshold += incrementThreshold`), emitting the event;
otherwise leave threshold and increment alone. -/
def checkpointAdjust (price1 target newInc thr inc : Nat) :
    Except SolError (Nat × Nat × List Event) :=
  if price1 = target then
    match csub thr inc with
    | .error e => .error e
    | .ok t =>
      match cadd t newInc with
      | .error e => .error e
      | .ok t2 => .ok (t2, newInc, [Event.PriceThresholdUpdated t2 price1])
  else .ok (thr, inc, [])

/-- One iteration of the tiered repricing loop body (lines 343-365): raise the
price by 1000, push the threshold up by the current increment, then run the
three checkpoint blocks (prices 7000, 8000 and 11000 install increments
325000, 350000 and 400000 respectively) in source order.  Returns the new
`(tokenPrice, threshold, incrementThreshold)` and the `PriceThresholdUpdated`
events of the iteration. -/
def priceIter (price thr inc : Nat) : Except SolError (Nat × Nat × Nat × List Event) :=
  match cadd price 1000 with
  | .error e => .error e
  | .ok price1 =>
  match cadd thr inc with
  | .error e => .error e
  | .ok thr1 =>
  let ev0 := [Event.PriceThresholdUpdated thr1 price1]
  match checkpointAdjust price1 7000 325000 thr1 inc with
  | .error e => .error e
  | .ok (thr2, inc2, ev1) =>
  match checkpointAdjust price1 8000 350000 thr2 inc2 with
  | .error e => .error e
  | .ok (thr3, inc3, ev2) =>
  match checkpointAdjust price1 11000 400000 thr3 inc3 with
  | .error e => .error e
  | .ok (thr4, inc4, ev3) => .ok (price1, thr4, inc4, ev0 ++ ev1 ++ ev2 ++ ev3)

/-- The repricing loop `while totalUsdGathered / 1000000 >= threshold` of
`releaseZKTC`.  `usdNorm` is the fixed `totalUsdGathered / 1000000`.  `fuel`
plays the role of gas: `none` means the loop failed to finish within the
given number of iterations. -/
def priceLoop : Nat → Nat → Nat → Nat → Nat →
    Option (Except SolError (Nat × Nat × Nat × List Event))
  | 0, _, _, _, _ => none
  | fuel + 1, usdNorm, price, thr, inc =>
    if thr ≤ usdNorm then
      match priceIter price thr inc with
      | .error e => some (.error e)
      | .ok (price1, thr1, inc1, evs) =>
        match priceLoop fuel usdNorm price1 thr1 inc1 with
        | none => none
        | some (.error e) => some (.error e)
        | some (.ok (p, t, i, evs1)) => some (.ok (p, t, i, evs ++ evs1))
    else some (.ok (price, thr, inc, []))

/-- Core of `_lockTokensForUser` (lines 454-485) acting on one mapping entry:
the additive merge when a lock already exists, with the explicit overflow
guards of the source, and the first-time initialization otherwise.  Note that
the first-time branch writes `totalAmount`, both tranche amounts and
`lockTimestamp` but leaves the claimed counters as they were. -/
def lockMerge (L : LockedTokens) (amount now : Nat) : Except SolError LockedTokens :=
  if 0 < L.totalAmount then
    if MAXU - amount < L.totalAmount then .error .OverflowDetected
    else
      let totalAmount1 := L.totalAmount + amount
      let halfAmount := amount / 2
      if MAXU - halfAmount < L.sevenMonthAmount then .error .OverflowDetected
      else
        let sevenMonthAmount1 := L.sevenMonthAmount + halfAmount
        let remainingAmount := amount - halfAmount
        if MAXU - remainingAmount < L.oneYearAmount then .error .OverflowDetected
        else
          .ok { L with totalAmount := totalAmount1
                       sevenMonthAmount := sevenMonthAmount1
                       oneYearAmount := L.oneYearAmount + remainingAmount }
  else
    .ok { L with totalAmount := amount
                 sevenMonthAmount := amount / 2
                 oneYearAmount := amount - amount / 2
                 lockTimestamp := now }

/-- `_lockTokensForUser(user, amount)`: zero-address and zero-amount guards,
then the merge on the user's mapping entry, then the `TokensLocked` event. -/
def lockTokensForUser (user amount now : Nat) (s : DCOState) :
    Except SolError (DCOState × List Event) :=
  if user = 0 then .error .InvalidAddress
  else if amount = 0 then .error .AmountMustBeGreaterThanZero
  else
    match lockMerge (s.userLockedTokens user) amount now with
    | .error e => .error e
    | .ok L1 => .ok (setLock s user L1, [Event.TokensLocked user amount now])

/-- `setTokenPrice` (lines 193-199): any positive price is accepted. -/
def setTokenPrice (newTokenPrice : Nat) (s : DCOState) :
    Except SolError (DCOState × List Event) :=
  if newTokenPrice = 0 then .error .TokenPriceMustBeGreaterThanZero
  else .ok ({ s with tokenPrice := newTokenPrice },
            [Event.TokenPriceUpdated s.tokenPrice newTokenPrice])

/-- `setDCOEndTime` (lines 208-211).  The source emits the event after the
assignment, so both event fields carry the new time. -/
def setDCOEndTime (newDCOEndTime : Nat) (s : DCOState) :
    Except SolError (DCOState × List Event) :=
  .ok ({ s with DCO_END_TIME := newDCOEndTime },
       [Event.DCOEndTimeUpdated newDCOEndTime newDCOEndTime])

/-- `injectSupply` (lines 221-227): pulls `amount` tokens into the contract
(the owner is assumed to hold and approve them) and reports the new balance. -/
def injectSupply (amount : Nat) (s : DCOState) :
    Except SolError (DCOState × List Event) :=
  if amount = 0 then .error .AmountMustBeGreaterThanZero
  else
    match cadd s.zkBalance amount with
    | .error e => .error e
    | .ok b => .ok ({ s with zkBalance := b }, [Event.TokensInjected amount b])

/-- `setWalletAddresses` (lines 173-184). -/
def setWalletAddresses (btcAddress1 : String) (ethAddress1 : Nat)
    (solAddress1 : String) (s : DCOState) : Except SolError (DCOState × List Event) :=
  if ethAddress1 = 0 then .error .InvalidWalletAddress
  else if btcAddress1.length = 0 then .error .InvalidWalletAddress
  else if solAddress1.length = 0 then .error .InvalidWalletAddress
  else .ok ({ s with btcAddress := btcAddress1, ethAddress := ethAddress1,
                     solAddress := solAddress1 }, [])

/-- `updatePriceThresholds` (lines 388-391): rejects a zero increment. -/
def updatePriceThresholds (incrementThreshold1 : Nat) (s : DCOState) :
    Except SolError (DCOState × List Event) :=
  if incrementThreshold1 = 0 then .error .InvalidIncrementThreshold
  else .ok ({ s with incrementThreshold := incrementThreshold1 }, [])

/-- `updateThreshold` (lines 436-438): unguarded. -/
def updateThreshold (threshold1 : Nat) (s : DCOState) :
    Except SolError (DCOState × List Event) :=
  .ok ({ s with threshold := threshold1 }, [])

/-- `updateUsdtGathered` (lines 487-489): unguarded overwrite. -/
def updateUsdtGathered (newUsdtGathered : Nat) (s : DCOState) :
    Except SolError (DCOState × List Event) :=
  .ok ({ s with totalUsdGathered := newUsdtGathered }, [])

/-- `updateZCW` (lines 431-434). -/
def updateZCW (newZCW : Nat) (s : DCOState) : Except SolError (DCOState × List Event) :=
  if newZCW = 0 then .error .InvalidAddress
  else .ok ({ s with ZCW := newZCW }, [])

/-- `setTimePeriods` (lines 690-694): overwrites both vesting marks. -/
def setTimePeriods (sevenMonthsTime1 oneYearTime1 : Nat) (s : DCOState) :
    Except SolError (DCOState × List Event) :=
  .ok ({ s with SEVEN_MONTHS := sevenMonthsTime1, ONE_YEAR := oneYearTime1 },
       [Event.TimePeriodsSet sevenMonthsTime1 oneYearTime1])

/-- `DonateToZCW` (lines 412-417): transfer the whole `totalDonations` to the
`ZCW` address, zero the counter, then emit `ZCWDonated` reading the
already-reset counter. -/
def DonateToZCW (now : Nat) (s : DCOState) : Except SolError (DCOState × List Event) :=
  if s.totalDonations = 0 then .error .NoDonationsMade
  else if s.zkBalance < s.totalDonations then .error .erc20InsufficientBalance
  else
    let s1 := { s with zkBalance := s.zkBalance - s.totalDonations, totalDonations := 0 }
    .ok (s1, [Event.transfer s.ZCW s.totalDonations, Event.ZCWDonated s1.totalDonations now])

/-- `UpdateAllocations` (lines 419-422): zero the user's `totalAmount`, then
lock `amount * 10 ** 18` through `_lockTokensForUser` (the zeroing forces the
first-time branch of the merge, which does not reset the claimed counters). -/
def UpdateAllocations (user amount now : Nat) (s : DCOState) :
    Except SolError (DCOState × List Event) :=
  let s1 := setLock s user { s.userLockedTokens user with totalAmount := 0 }
  match cmul amount SCALE with
  | .error e => .error e
  | .ok a => lockTokensForUser user a now s1

/-- `getQuote` (lines 283-312): price both legs, return early for a pure
donation or an empty pool, and clamp only the purchase leg against
`balance - totalDonations`. -/
def getQuote (usdtAmount donationAmount : Nat) (s : DCOState) :
    Except SolError (Nat × Nat) :=
  if usdtAmount = 0 ∧ donationAmount = 0 then .ok (0, 0)
  else if s.tokenPrice = 0 then .error .InvalidTokenPrice
  else
    match cmul usdtAmount SCALE with
    | .error e => .error e
    | .ok m1 =>
    match cdiv m1 s.tokenPrice with
    | .error e => .error e
    | .ok tokensToReceive =>
    match cmul donationAmount SCALE with
    | .error e => .error e
    | .ok m2 =>
    match cdiv m2 s.tokenPrice with
    | .error e => .error e
    | .ok donatedTokens =>
    if usdtAmount = 0 then .ok (0, donatedTokens)
    else
      match csub s.zkBalance s.totalDonations with
      | .error e => .error e
      | .ok availableTokens =>
      if availableTokens = 0 then .ok (0, donatedTokens)
      else
        match cadd tokensToReceive donatedTokens with
        | .error e => .error e
        | .ok sum =>
        if availableTokens < sum then
          match csub availableTokens donatedTokens with
          | .error e => .error e
          | .ok clamped => .ok (clamped, donatedTokens)
        else .ok (tokensToReceive, donatedTokens)

/-- `getWithdrawableAmount` (lines 584-609): the view sums the unclaimed
tranches, but gates each tranche on `lockTimestamp + SEVEN_MONTHS` and
`lockTimestamp + ONE_YEAR` (the global marks added to the lock time). -/
def getWithdrawableAmount (now user : Nat) (s : DCOState) : Except SolError Nat :=
  if user = 0 then .error .InvalidAddress
  else
    let L := s.userLockedTokens user
    if L.totalAmount = 0 then .ok 0
    else
      match cadd L.lockTimestamp s.SEVEN_MONTHS with
      | .error e => .error e
      | .ok gate7 =>
      match (if gate7 ≤ now then
               if L.sevenMonthAmount < L.sevenMonthClaimed then
                 .error SolError.UnderflowDetected
               else .ok (L.sevenMonthAmount - L.sevenMonthClaimed)
             else .ok 0 : Except SolError Nat) with
      | .error e => .error e
      | .ok w7 =>
      match cadd L.lockTimestamp s.ONE_YEAR with
      | .error e => .error e
      | .ok gate12 =>
      match (if gate12 ≤ now then
               if L.oneYearAmount < L.oneYearClaimed then
                 .error SolError.UnderflowDetected
               else .ok (L.oneYearAmount - L.oneYearClaimed)
             else .ok 0 : Except SolError Nat) with
      | .error e => .error e
      | .ok w12 => cadd w7 w12

/-- `getTimeUntilRelease` (lines 617-648). -/
def getTimeUntilRelease (now user : Nat) (s : DCOState) : Except SolError (Nat × Nat) :=
  if user = 0 then .error .InvalidAddress
  else
    let L := s.userLockedTokens user
    if L.totalAmount = 0 then .ok (0, 0)
    else
      match cadd L.lockTimestamp s.SEVEN_MONTHS with
      | .error e => .error e
      | .ok sevenMonthTime =>
      match cadd L.lockTimestamp s.ONE_YEAR with
      | .error e => .error e
      | .ok oneYearTime =>
        .ok ((if sevenMonthTime < now then 0 else sevenMonthTime - now),
             (if oneYearTime < now then 0 else oneYearTime - now))

/-- Result of a raw (non-transactional) execution: the storage as mutated up
to the point where the call stopped, the events of a successful run, and the
error of a failed one.  The EVM discards both the mutations and the logs of a
failed call; the raw form keeps the mutated storage so that claims about the
internal order of checks and writes can be stated. -/
structure RawResult where
  state : DCOState
  events : List Event
  err : Option SolError

/-- EVM-observable state after a call: a revert restores the pre-state. -/
def txState (r : RawResult) (s : DCOState) : DCOState :=
  match r.err with
  | some _ => s
  | none => r.state

/-- Raw execution of `releaseZKTC(amount, buyer, donationAmount)` (lines
324-377) in source statement order: the guard checks, then the `tokenSold`
and `totalUsdGathered` increments, the repricing loop, the lock-merge and the
donation accrual.  The repricing loop and the lock-merge are modelled as
atomic sub-steps: when one of them reverts the enclosing transaction is
reverted too, so their partially-updated storage is never observable and the
raw result simply keeps the storage as of their entry. -/
def releaseZKTCRaw (now amount buyer donationAmount : Nat) (s : DCOState) : RawResult :=
  if s.DCO_END_TIME < now then ⟨s, [], some .DCONotActive⟩
  else if amount = 0 ∧ donationAmount = 0 then ⟨s, [], some .AmountMustBeGreaterThanZero⟩
  else if buyer = 0 then ⟨s, [], some .InvalidAddress⟩
  else
    match cmul amount SCALE with
    | .error e => ⟨s, [], some e⟩
    | .ok m1 =>
    match cdiv m1 s.tokenPrice with
    | .error e => ⟨s, [], some e⟩
    | .ok tokensToBuy =>
    match cmul donationAmount SCALE with
    | .error e => ⟨s, [], some e⟩
    | .ok m2 =>
    match cdiv m2 s.tokenPrice with
    | .error e => ⟨s, [], some e⟩
    | .ok donation =>
    if s.zkBalance = 0 then ⟨s, [], some .NoTokensRemaining⟩
    else
      match getAvailableForWithdrawal s with
      | .error e => ⟨s, [], some e⟩
      | .ok avail =>
      match cadd tokensToBuy donation with
      | .error e => ⟨s, [], some e⟩
      | .ok outAmount =>
      if avail < outAmount then ⟨s, [], some .InsufficientTokens⟩
      else
        match cadd s.tokenSold outAmount with
        | .error e => ⟨s, [], some e⟩
        | .ok sold1 =>
        let s1 := { s with tokenSold := sold1 }
        match cadd amount donationAmount with
        | .error e => ⟨s1, [], some e⟩
        | .ok refSum =>
        match cadd s1.totalUsdGathered refSum with
        | .error e => ⟨s1, [], some e⟩
        | .ok usd1 =>
        let s2 := { s1 with totalUsdGathered := usd1 }
        match priceLoop (usd1 / 1000000 + 2) (usd1 / 1000000)
                s2.tokenPrice s2.threshold s2.incrementThreshold with
        | none => ⟨s2, [], some .outOfGas⟩
        | some (.error e) => ⟨s2, [], some e⟩
        | some (.ok (price1, thr1, inc1, loopEvs)) =>
        let s3 := { s2 with tokenPrice := price1, threshold := thr1,
                            incrementThreshold := inc1 }
        match (if 0 < tokensToBuy then
                 match lockTokensForUser buyer tokensToBuy now s3 with
                 | .error e => .error e
                 | .ok (s4, evs) =>
                   .ok (s4, evs ++ [Event.TokensReleased buyer tokensToBuy now])
               else .ok (s3, []) : Except SolError (DCOState × List Event)) with
        | .error e => ⟨s3, [], some e⟩
        | .ok (s4, lockEvs) =>
        if 0 < donation then
          match cadd s4.totalDonations donation with
          | .error e => ⟨s4, [], some e⟩
          | .ok don1 =>
            ⟨{ s4 with totalDonations := don1 },
             loopEvs ++ lockEvs ++ [Event.DonationMade buyer donation now], none⟩
        else ⟨s4, loopEvs ++ lockEvs, none⟩

/-- `releaseZKTC`: the transactional wrapper over the raw execution. -/
def releaseZKTC (now amount buyer donationAmount : Nat) (s : DCOState) :
    Except SolError (DCOState × List Event) :=
  match releaseZKTCRaw now amount buyer donationAmount s with
  | ⟨s1, evs, none⟩ => .ok (s1, evs)
  | ⟨_, _, some e⟩ => .error e

/-- Raw execution of `withdraw()` by `user` (lines 496-542) in source
statement order.  Each tranche block writes its claimed counter as soon as it
finds something claimable, so the `InsufficientBalance` check and the event
arithmetic run against already-mutated storage; the raw result exposes it. -/
def withdrawRaw (now user : Nat) (s : DCOState) : RawResult :=
  let L := s.userLockedTokens user
  if L.totalAmount = 0 then ⟨s, [], some .NoTokensToWithdraw⟩
  else
    match (if s.SEVEN_MONTHS ≤ now then
             match csub L.sevenMonthAmount L.sevenMonthClaimed with
             | .error e => .error e
             | .ok sevenMonthAvailable =>
               if 0 < sevenMonthAvailable then
                 if L.sevenMonthAmount < L.sevenMonthClaimed then
                   .error SolError.UnderflowDetected
                 else .ok (sevenMonthAvailable,
                           { L with sevenMonthClaimed := L.sevenMonthAmount })
               else .ok (0, L)
           else .ok (0, L) : Except SolError (Nat × LockedTokens)) with
    | .error e => ⟨s, [], some e⟩
    | .ok (w7, L1) =>
    let s1 := if 0 < w7 then setLock s user L1 else s
    match (if s.ONE_YEAR ≤ now then
             match csub L1.oneYearAmount L1.oneYearClaimed with
             | .error e => .error e
             | .ok oneYearAvailable =>
               if 0 < oneYearAvailable then
                 if L1.oneYearAmount < L1.oneYearClaimed then
                   .error SolError.UnderflowDetected
                 else .ok (oneYearAvailable,
                           { L1 with oneYearClaimed := L1.oneYearAmount })
               else .ok (0, L1)
           else .ok (0, L1) : Except SolError (Nat × LockedTokens)) with
    | .error e => ⟨s1, [], some e⟩
    | .ok (w12, L2) =>
    let s2 := if 0 < w12 then setLock s1 user L2 else s1
    match cadd w7 w12 with
    | .error e => ⟨s2, [], some e⟩
    | .ok totalWithdrawable =>
    if totalWithdrawable = 0 ∧ now < s.SEVEN_MONTHS then
      ⟨s2, [], some .SevenMonthReleaseNotAvailable⟩
    else if totalWithdrawable = 0 ∧ now < s.ONE_YEAR then
      ⟨s2, [], some .OneYearReleaseNotAvailable⟩
    else if s2.zkBalance < totalWithdrawable then
      ⟨s2, [], some .InsufficientBalance⟩
    else
      let s3 := { s2 with zkBalance := s2.zkBalance - totalWithdrawable }
      match cadd L2.lockTimestamp s.ONE_YEAR with
      | .error e => ⟨s3, [], some e⟩
      | .ok fullMark =>
        ⟨s3, [Event.transfer user totalWithdrawable,
              Event.TokensWithdrawnUser user totalWithdrawable
                (if fullMark ≤ now then 2 else 1)], none⟩

/-- `withdraw`: the transactional wrapper over the raw execution. -/
def withdraw (now user : Nat) (s : DCOState) : Except SolError (DCOState × List Event) :=
  match withdrawRaw now user s with
  | ⟨s1, evs, none⟩ => .ok (s1, evs)
  | ⟨_, _, some e⟩ => .error e

/-- `withdrawParticularZKTC` (lines 658-669). -/
def withdrawParticularZKTC (now amount : Nat) (s : DCOState) :
    Except SolError (DCOState × List Event) :=
  if now < s.DCO_END_TIME then .error .CannotWithdrawBeforeGlobalRelease
  else if amount = 0 then .error .AmountMustBeGreaterThanZero
  else if MAXU / 2 < amount then .error .InvalidAmount
  else
    match getAvailableForWithdrawal s with
    | .error e => .error e
    | .ok availableBalance =>
    if availableBalance < amount then .error .InsufficientBalance
    else if s.zkBalance < amount then .error .InsufficientBalance
    else
      .ok ({ s with zkBalance := s.zkBalance - amount },
           [Event.transfer s.owner amount, Event.TokensWithdrawnOwner s.owner amount])

/-- `withdrawAllZKTC` (lines 678-688). -/
def withdrawAllZKTC (now : Nat) (s : DCOState) :
    Except SolError (DCOState × List Event) :=
  if now < s.DCO_END_TIME then .error .CannotWithdrawBeforeGlobalRelease
  else
    match getAvailableForWithdrawal s with
    | .error e => .error e
    | .ok availableBalance =>
    if availableBalance = 0 then .error .NoBalanceToWithdraw
    else if s.zkBalance < availableBalance then .error .InsufficientBalance
    else
      .ok ({ s with zkBalance := s.zkBalance - availableBalance },
           [Event.transfer s.owner availableBalance,
            Event.TokensWithdrawnOwner s.owner availableBalance])

/-- The state-changing entry points of the ledger interface. -/
inductive Op where
  | setTokenPrice (newTokenPrice : Nat)
  | setDCOEndTime (newDCOEndTime : Nat)
  | injectSupply (amount : Nat)
  | setWalletAddresses (btc : String) (eth : Nat) (sol : String)
  | updatePriceThresholds (incrementThreshold1 : Nat)
  | updateThreshold (threshold1 : Nat)
  | updateUsdtGathered (newUsdtGathered : Nat)
  | updateZCW (newZCW : Nat)
  | setTimePeriods (sevenMonthsTime1 oneYearTime1 : Nat)
  | releaseZKTC (amount buyer donationAmount : Nat)
  | donateToZCW
  | updateAllocations (user amount : Nat)
  | withdraw (user : Nat)
  | withdrawParticularZKTC (amount : Nat)
  | withdrawAllZKTC
  deriving DecidableEq, Repr

/-- Dispatch one interface call at block time `now`. -/
def step (o : Op) (now : Nat) (s : DCOState) : Except SolError (DCOState × List Event) :=
  match o with
  | .setTokenPrice p => setTokenPrice p s
  | .setDCOEndTime t => setDCOEndTime t s
  | .injectSupply a => injectSupply a s
  | .setWalletAddresses b e so => setWalletAddresses b e so s
  | .updatePriceThresholds i => updatePriceThresholds i s
  | .updateThreshold t => updateThreshold t s
  | .updateUsdtGathered u => updateUsdtGathered u s
  | .updateZCW z => updateZCW z s
  | .setTimePeriods a b => setTimePeriods a b s
  | .releaseZKTC a b d => releaseZKTC now a b d s
  | .donateToZCW => DonateToZCW now s
  | .updateAllocations u a => UpdateAllocations u a now s
  | .withdraw u => withdraw now u s
  | .withdrawParticularZKTC a => withdrawParticularZKTC now a s
  | .withdrawAllZKTC => withdrawAllZKTC now s

/-- Post-state of a call, with the pre-state kept when the call reverts. -/
def stepOk (o : Op) (now : Nat) (s : DCOState) : DCOState :=
  match step o now s with
  | .ok (s1, _) => s1
  | .error _ => s

/-- Error of a call, `none` when it succeeds. -/
def stepErr (o : Op) (now : Nat) (s : DCOState) : Option SolError :=
  match step o now s with
  | .ok _ => none
  | .error e => some e

/-- Events of a successful call (a reverted call logs nothing). -/
def stepEvents (o : Op) (now : Nat) (s : DCOState) : List Event :=
  match step o now s with
  | .ok (_, evs) => evs
  | .error _ => []

/-- States reachable from a fresh deployment by any sequence of interface
calls at arbitrary block times. -/
inductive Reachable : DCOState → Prop where
  | init (initialOwner tokenPrice_ zcwAddress now : Nat)
      (ho : initialOwner ≠ 0) (hp : 0 < tokenPrice_) (hz : zcwAddress ≠ 0) :
      Reachable (initState initialOwner tokenPrice_ zcwAddress now)
  | next (o : Op) (now : Nat) (s s1 : DCOState) (evs : List Event)
      (hs : Reachable s) (h : step o now s = .ok (s1, evs)) : Reachable s1

/-- Per-user bookkeeping invariant claimed by the specification: neither
claimed counter exceeds its tranche amount.  The third conjunct (an untouched
lock has nothing claimed) is the auxiliary fact that makes the invariant
inductive: the first-time branch of the lock-merge does not write the claimed
counters, so it only re-establishes the bounds for entries that were never
claimed from. -/
def LockInv (L : LockedTokens) : Prop :=
  L.sevenMonthClaimed ≤ L.sevenMonthAmount ∧
  L.oneYearClaimed ≤ L.oneYearAmount ∧
  (L.totalAmount = 0 → L.sevenMonthClaimed = 0 ∧ L.oneYearClaimed = 0)

/-- The per-user invariant, for every address. -/
def StateInv (s : DCOState) : Prop := ∀ a, LockInv (s.userLockedTokens a)

/- Concrete trace states used by the individual claims.  Each `tr<i>_<j>`
is the j-th state of a call sequence starting from a fresh deployment. -/

/-- C1 trace: deploy at price 500, inject `10^18` tokens, then allocate a
pure donation of 500 reference units (`= 10^18` donation tokens). -/
def tr1_0 : DCOState := initState 1 500 3 0

/-- C1 trace, after `injectSupply(10^18)`. -/
def tr1_1 : DCOState := stepOk (Op.injectSupply (10 ^ 18)) 0 tr1_0

/-- C1 trace, after `releaseZKTC(0, buyer 1, donation 500)`. -/
def tr1_2 : DCOState := stepOk (Op.releaseZKTC 0 1 500) 0 tr1_1

/-- C2 trace: deploy at price `10^18` (one token per reference unit), inject
5000, allocate a pure donation of 5000. -/
def tr2_0 : DCOState := initState 1 (10 ^ 18) 3 0

/-- C2 trace, after `injectSupply(5000)`. -/
def tr2_1 : DCOState := stepOk (Op.injectSupply 5000) 0 tr2_0

/-- C2 trace, after `releaseZKTC(0, buyer 1, donation 5000)`:
`totalDonations = 5000`. -/
def tr2_2 : DCOState := stepOk (Op.releaseZKTC 0 1 5000) 0 tr2_1

/-- C3/C5 trace: deploy at price `10^18`, inject 100 tokens, sell all 100 to
buyer 1. -/
def tr3_0 : DCOState := initState 1 (10 ^ 18) 3 0

/-- C3/C5 trace, after `injectSupply(100)`. -/
def tr3_1 : DCOState := stepOk (Op.injectSupply 100) 0 tr3_0

/-- C3/C5 trace, after `releaseZKTC(100, buyer 1, 0)`: buyer 1 holds a
100-token lock split 50/50, `tokenSold = zkBalance = 100`. -/
def tr3_2 : DCOState := stepOk (Op.releaseZKTC 100 1 0) 0 tr3_1

/-- The one-year mark of a deployment at time 0. -/
def oneYearMark : Nat := 342 * 86400

/-- The seven-month mark of a deployment at time 0. -/
def sevenMonthMark : Nat := 187 * 86400

/-- C3 trace, after buyer 1 withdraws everything at the one-year mark: both
tranches fully claimed. -/
def tr3_3 : DCOState := stepOk (Op.withdraw 1) oneYearMark tr3_2

/-- C4 trace: deploy at price 500, inject `4 * 10^18` tokens, sell them all
to buyer 1 (2000 reference units). -/
def tr4_0 : DCOState := initState 1 500 3 0

/-- C4 trace, after `injectSupply(4 * 10^18)`. -/
def tr4_1 : DCOState := stepOk (Op.injectSupply (4 * 10 ^ 18)) 0 tr4_0

/-- C4 trace, after `releaseZKTC(2000, buyer 1, 0)`. -/
def tr4_2 : DCOState := stepOk (Op.releaseZKTC 2000 1 0) 0 tr4_1

/-- C4 trace, after buyer 1 claims the seven-month tranche
(`sevenMonthClaimed = 2 * 10^18`). -/
def tr4_3 : DCOState := stepOk (Op.withdraw 1) sevenMonthMark tr4_2

/-- C4 trace, after `UpdateAllocations(1, 1)`: the tranche amounts are
re-initialized to `5 * 10^17` each while `sevenMonthClaimed` stays at
`2 * 10^18`. -/
def tr4_4 : DCOState := stepOk (Op.updateAllocations 1 1) sevenMonthMark tr4_3

/-- C6 trace: deploy at price 500, then `UpdateAllocations(1, 100)` grants
buyer 1 a `100 * 10^18` lock while the contract balance is still zero. -/
def tr6_0 : DCOState := initState 1 500 3 0

/-- C6 trace, after `UpdateAllocations(1, 100)`. -/
def tr6_1 : DCOState := stepOk (Op.updateAllocations 1 100) 0 tr6_0

/-- C10 trace: deploy at price `10^18`, inject 100 tokens, sell them to
buyer 1 at block time 10 (so `lockTimestamp = 10`). -/
def tr10_0 : DCOState := initState 1 (10 ^ 18) 3 0

/-- C10 trace, after `injectSupply(100)`. -/
def tr10_1 : DCOState := stepOk (Op.injectSupply 100) 0 tr10_0

/-- C10 trace, after `releaseZKTC(100, buyer 1, 0)` at block time 10. -/
def tr10_2 : DCOState := stepOk (Op.releaseZKTC 100 1 0) 10 tr10_1

/-- Concrete lock used by the C3 and C9 witnesses: a fully claimed 100-token
lock. -/
def fullyClaimedLock : LockedTokens := ⟨100, 50, 50, 50, 50, 0⟩

/-- Concrete state used by the C3 witness: vesting marks at 100 and 200,
buyer 1 fully claimed. -/
def c3WitnessState : DCOState :=
  { tr3_0 with SEVEN_MONTHS := 100, ONE_YEAR := 200,
               userLockedTokens := fun a => if a = 1 then fullyClaimedLock else emptyLock }

/-- States reachable without ever calling `UpdateAllocations`. -/
inductive ReachableNoUpd : DCOState → Prop where
  | init (initialOwner tokenPrice_ zcwAddress now : Nat)
      (ho : initialOwner ≠ 0) (hp : 0 < tokenPrice_) (hz : zcwAddress ≠ 0) :
      ReachableNoUpd (initState initialOwner tokenPrice_ zcwAddress now)
  | next (o : Op) (now : Nat) (s s1 : DCOState) (evs : List Event)
      (hno : ∀ u a, o ≠ Op.updateAllocations u a)
      (hs : ReachableNoUpd s) (h : step o now s = .ok (s1, evs)) : ReachableNoUpd s1

theorem cadd_eq_ok (a b c : Nat) : cadd a b = .ok c ↔ a + b ≤ MAXU ∧ c = a + b := by
  unfold cadd
  split <;> simp_all <;> omega

theorem cadd_eq_err (a b : Nat) (e : SolError) :
    cadd a b = .error e ↔ MAXU < a + b ∧ e = .panicOverflow := by
  unfold cadd
  split
  next hle =>
    constructor
    · intro h
      cases h
    · intro h
      omega
  next hle =>
    constructor
    · intro h
      cases h
      exact ⟨by omega, rfl⟩
    · intro h
      rw [h.2]

theorem csub_eq_ok (a b c : Nat) : csub a b = .ok c ↔ b ≤ a ∧ c = a - b := by
  unfold csub
  split <;> simp_all <;> omega

theorem csub_eq_err (a b : Nat) (e : SolError) :
    csub a b = .error e ↔ a < b ∧ e = .panicUnderflow := by
  unfold csub
  split
  next hle =>
    constructor
    · intro h
      cases h
    · intro h
      omega
  next hle =>
    constructor
    · intro h
      cases h
      exact ⟨by omega, rfl⟩
    · intro h
      rw [h.2]

theorem lockMerge_err (L : LockedTokens) (amount now : Nat) (e : SolError)
    (h : lockMerge L amount now = .error e) : e = SolError.OverflowDetected := by
  unfold lockMerge at h
  dsimp only at h
  split at h
  · split at h
    · simpa using h.symm
    · split at h
      · simpa using h.symm
      · split at h
        · simpa using h.symm
        · cases h
  · cases h

theorem lockMerge_inv (L : LockedTokens) (amount now : Nat) (L1 : LockedTokens)
    (hL : LockInv L) (ha : 0 < amount) (h : lockMerge L amount now = .ok L1) :
    LockInv L1 := by
  obtain ⟨h7, h12, h0⟩ := hL
  unfold lockMerge at h
  dsimp only at h
  split at h
  · split at h
    · cases h
    · split at h
      · cases h
      · split at h
        · cases h
        · simp only [Except.ok.injEq] at h
          subst h
          refine ⟨by simp; omega, by simp; omega, by simp; omega⟩
  next hz =>
    simp only [Except.ok.injEq] at h
    subst h
    have := h0 (by omega)
    refine ⟨by simp; omega, by simp; omega, by simp; omega⟩

/-- A checkpoint block that fails can only fail with an overflow panic, as
long as the current increment does not exceed the current threshold (which
holds whenever the loop body has just added the increment to the threshold). -/
theorem checkpointAdjust_err (price1 target newInc thr inc : Nat) (e : SolError)
    (hle : inc ≤ thr) (h : checkpointAdjust price1 target newInc thr inc = .error e) :
    e = SolError.panicOverflow := by
  unfold checkpointAdjust at h
  split at h
  · cases hc : csub thr inc with
    | error e2 =>
      rw [csub_eq_err] at hc
      omega
    | ok t =>
      simp only [hc] at h
      cases hd : cadd t newInc with
      | error e2 =>
        simp only [hd, Except.error.injEq] at h
        rw [cadd_eq_err] at hd
        rw [← h]
        exact hd.2
      | ok t2 => simp [hd] at h
  · cases h

/-- A successful checkpoint block keeps a positive increment positive and,
when the increment fits under the threshold, keeps the new increment under
the new threshold and preserves their difference. -/
theorem checkpointAdjust_ok (price1 target newInc thr inc thr2 inc2 : Nat)
    (ev : List Event) (hn : 1 ≤ newInc)
    (h : checkpointAdjust price1 target newInc thr inc = .ok (thr2, inc2, ev)) :
    (1 ≤ inc → 1 ≤ inc2) ∧ (inc ≤ thr → inc2 ≤ thr2 ∧ thr2 - inc2 = thr - inc) := by
  unfold checkpointAdjust at h
  split at h
  · cases hc : csub thr inc with
    | error e2 => simp [hc] at h
    | ok t =>
      simp only [hc] at h
      rw [csub_eq_ok] at hc
      cases hd : cadd t newInc with
      | error e2 => simp [hd] at h
      | ok t2 =>
        simp only [hd, Except.ok.injEq, Prod.mk.injEq] at h
        rw [cadd_eq_ok] at hd
        obtain ⟨h1, h2, h3⟩ := h
        omega
  · simp only [Except.ok.injEq, Prod.mk.injEq] at h
    obtain ⟨h1, h2, h3⟩ := h
    omega

/-- Case analysis on one repricing iteration: it either overflows, or raises
the price by exactly 1000 and, provided the increment is positive, strictly
raises the threshold and keeps the increment positive. -/
theorem priceIter_cases (price thr inc : Nat) :
    priceIter price thr inc = .error SolError.panicOverflow ∨
    ∃ thr1 inc1 evs, priceIter price thr inc = .ok (price + 1000, thr1, inc1, evs) ∧
      (1 ≤ inc → thr + 1 ≤ thr1) ∧ (1 ≤ inc → 1 ≤ inc1) := by
  unfold priceIter
  cases h1 : cadd price 1000 with
  | error e =>
    rw [cadd_eq_err] at h1
    simp [h1.2]
  | ok p1 =>
  rw [cadd_eq_ok] at h1
  obtain ⟨hb1, hp1⟩ := h1
  subst hp1
  cases h2 : cadd thr inc with
  | error e =>
    rw [cadd_eq_err] at h2
    simp [h2.2]
  | ok t1 =>
  rw [cadd_eq_ok] at h2
  obtain ⟨hb2, ht1⟩ := h2
  subst ht1
  cases hc1 : checkpointAdjust (price + 1000) 7000 325000 (thr + inc) inc with
  | error e =>
    have he := checkpointAdjust_err _ _ _ _ _ _ (by omega) hc1
    simp [hc1, he]
  | ok v1 =>
  obtain ⟨thr2, inc2, ev1⟩ := v1
  have hs1 := checkpointAdjust_ok _ _ _ _ _ _ _ _ (by omega) hc1
  have ha1 := hs1.2 (by omega)
  cases hc2 : checkpointAdjust (price + 1000) 8000 350000 thr2 inc2 with
  | error e =>
    have he := checkpointAdjust_err _ _ _ _ _ _ ha1.1 hc2
    simp [hc1, hc2, he]
  | ok v2 =>
  obtain ⟨thr3, inc3, ev2⟩ := v2
  have hs2 := checkpointAdjust_ok _ _ _ _ _ _ _ _ (by omega) hc2
  have ha2 := hs2.2 ha1.1
  cases hc3 : checkpointAdjust (price + 1000) 11000 400000 thr3 inc3 with
  | error e =>
    have he := checkpointAdjust_err _ _ _ _ _ _ ha2.1 hc3
    simp [hc1, hc2, hc3, he]
  | ok v3 =>
  obtain ⟨thr4, inc4, ev3⟩ := v3
  have hs3 := checkpointAdjust_ok _ _ _ _ _ _ _ _ (by omega) hc3
  have ha3 := hs3.2 ha2.1
  right
  refine ⟨thr4, inc4,
    [Event.PriceThresholdUpdated (thr + inc) (price + 1000)] ++ ev1 ++ ev2 ++ ev3,
    by simp [hc1, hc2, hc3], fun hz => ?_, fun hz => hs3.1 (hs2.1 (hs1.1 hz))⟩
  have i2 := hs1.1 hz
  have i3 := hs2.1 i2
  have i4 := hs3.1 i3
  omega

/-- The repricing loop finishes (possibly with an arithmetic revert) whenever
the increment is positive and the gas bound dominates the remaining distance
from the threshold to the normalized USD total. -/
theorem priceLoop_term (fuel usdNorm price thr inc : Nat) (hinc : 1 ≤ inc)
    (h1 : 1 ≤ fuel) (h2 : usdNorm + 2 ≤ thr + fuel) :
    priceLoop fuel usdNorm price thr inc ≠ none := by
  induction fuel generalizing price thr inc with
  | zero => omega
  | succ f ih =>
    unfold priceLoop
    by_cases hle : thr ≤ usdNorm
    · simp only [if_pos hle]
      rcases priceIter_cases price thr inc with herr | ⟨thr1, inc1, evs, hok, hthr, hinc1⟩
      · simp [herr]
      · simp only [hok]
        cases hrec : priceLoop f usdNorm (price + 1000) thr1 inc1 with
        | none =>
          have := ih (price + 1000) thr1 inc1 (hinc1 hinc)
            (by have := hthr hinc; omega) (by have := hthr hinc; omega)
          exact absurd hrec this
        | some r =>
          cases r with
          | error e => simp
          | ok v => simp
    · simp [if_neg hle]

/-- On a successful loop run the price never goes down and a positive
increment stays positive. -/
theorem priceLoop_ok (fuel usdNorm price thr inc p t i : Nat) (evs : List Event)
    (h : priceLoop fuel usdNorm price thr inc = some (.ok (p, t, i, evs))) :
    price ≤ p ∧ (1 ≤ inc → 1 ≤ i) := by
  induction fuel generalizing price thr inc evs with
  | zero => cases h
  | succ f ih =>
    unfold priceLoop at h
    by_cases hle : thr ≤ usdNorm
    · simp only [if_pos hle] at h
      rcases priceIter_cases price thr inc with herr | ⟨thr1, inc1, evs0, hok, hthr, hinc1⟩
      · simp [herr] at h
      · simp only [hok] at h
        cases hrec : priceLoop f usdNorm (price + 1000) thr1 inc1 with
        | none => simp [hrec] at h
        | some r =>
          cases r with
          | error e => simp [hrec] at h
          | ok v =>
            obtain ⟨p2, t2, i2, evs2⟩ := v
            simp only [hrec, Option.some.injEq, Except.ok.injEq, Prod.mk.injEq] at h
            obtain ⟨hp, ht, hi, he⟩ := h
            subst hp
            subst ht
            subst hi
            have := ih (price + 1000) thr1 inc1 evs2 hrec
            exact ⟨by omega, fun hz => this.2 (hinc1 hz)⟩
    · simp only [if_neg hle, Option.some.injEq, Except.ok.injEq, Prod.mk.injEq] at h
      obtain ⟨hp, ht, hi, he⟩ := h
      subst hp
      subst hi
      exact ⟨le_refl _, fun hz => hz⟩

/-- A failing loop run only ever reverts with an overflow panic. -/
theorem priceLoop_err (fuel usdNorm price thr inc : Nat) (e : SolError)
    (h : priceLoop fuel usdNorm price thr inc = some (.error e)) :
    e = SolError.panicOverflow := by
  induction fuel generalizing price thr inc with
  | zero => cases h
  | succ f ih =>
    unfold priceLoop at h
    by_cases hle : thr ≤ usdNorm
    · simp only [if_pos hle] at h
      rcases priceIter_cases price thr inc with herr | ⟨thr1, inc1, evs0, hok, hthr, hinc1⟩
      · simp only [herr, Option.some.injEq, Except.error.injEq] at h
        rw [h]
      · simp only [hok] at h
        cases hrec : priceLoop f usdNorm (price + 1000) thr1 inc1 with
        | none => simp [hrec] at h
        | some r =>
          cases r with
          | error e2 =>
            simp only [hrec, Option.some.injEq, Except.error.injEq] at h
            subst h
            exact ih (price + 1000) thr1 inc1 hrec
          | ok v =>
            obtain ⟨p2, t2, i2, evs2⟩ := v
            simp [hrec] at h
    · simp only [if_neg hle] at h
      cases h

theorem lockTokensForUser_ok (user amount now : Nat) (s s1 : DCOState) (evs : List Event)
    (h : lockTokensForUser user amount now s = .ok (s1, evs)) :
    user ≠ 0 ∧ 0 < amount ∧
    ∃ L1, lockMerge (s.userLockedTokens user) amount now = .ok L1 ∧
      s1 = setLock s user L1 := by
  unfold lockTokensForUser at h
  split at h
  · cases h
  split at h
  · cases h
  next hu ha =>
  cases hm : lockMerge (s.userLockedTokens user) amount now with
  | error e => simp [hm] at h
  | ok L1 =>
    simp only [hm, Except.ok.injEq, Prod.mk.injEq] at h
    exact ⟨hu, by omega, L1, rfl, h.1.symm⟩

theorem lockTokensForUser_err (user amount now : Nat) (s : DCOState) (e : SolError)
    (hu : user ≠ 0) (ha : amount ≠ 0)
    (h : lockTokensForUser user amount now s = .error e) :
    e = SolError.OverflowDetected := by
  unfold lockTokensForUser at h
  rw [if_neg hu, if_neg ha] at h
  cases hm : lockMerge (s.userLockedTokens user) amount now with
  | error e2 =>
    simp only [hm, Except.error.injEq] at h
    subst h
    exact lockMerge_err _ _ _ _ hm
  | ok L1 => simp [hm] at h

/-- Success characterization of the raw `releaseZKTC` execution: the price
never decreases, a positive increment stays positive, and every lock entry is
either untouched or the result of a successful lock-merge of a positive
amount into its previous value. -/
theorem releaseZKTCRaw_none_spec (now amount buyer donationAmount : Nat)
    (s s1 : DCOState) (evs : List Event)
    (h : releaseZKTCRaw now amount buyer donationAmount s = ⟨s1, evs, none⟩) :
    s.tokenPrice ≤ s1.tokenPrice ∧
    (1 ≤ s.incrementThreshold → 1 ≤ s1.incrementThreshold) ∧
    (∀ u, s1.userLockedTokens u = s.userLockedTokens u ∨
      ∃ amt L1, 0 < amt ∧ lockMerge (s.userLockedTokens u) amt now = .ok L1 ∧
        s1.userLockedTokens u = L1) := by
  unfold releaseZKTCRaw at h
  split at h
  · simp at h
  split at h
  · simp at h
  split at h
  · simp at h
  cases hm1 : cmul amount SCALE with
  | error e => simp [hm1] at h
  | ok m1 =>
  simp only [hm1] at h
  cases hd1 : cdiv m1 s.tokenPrice with
  | error e => simp [hd1] at h
  | ok tokensToBuy =>
  simp only [hd1] at h
  cases hm2 : cmul donationAmount SCALE with
  | error e => simp [hm2] at h
  | ok m2 =>
  simp only [hm2] at h
  cases hd2 : cdiv m2 s.tokenPrice with
  | error e => simp [hd2] at h
  | ok donation =>
  simp only [hd2] at h
  split at h
  · simp at h
  cases hav : getAvailableForWithdrawal s with
  | error e => simp [hav] at h
  | ok avail =>
  simp only [hav] at h
  cases hout : cadd tokensToBuy donation with
  | error e => simp [hout] at h
  | ok outAmount =>
  simp only [hout] at h
  split at h
  · simp at h
  cases hsold : cadd s.tokenSold outAmount with
  | error e => simp [hsold] at h
  | ok sold1 =>
  simp only [hsold] at h
  cases href : cadd amount donationAmount with
  | error e => simp [href] at h
  | ok refSum =>
  simp only [href] at h
  cases husd : cadd s.totalUsdGathered refSum with
  | error e => simp [husd] at h
  | ok usd1 =>
  simp only [husd] at h
  cases hloop : priceLoop (usd1 / 1000000 + 2) (usd1 / 1000000)
      s.tokenPrice s.threshold s.incrementThreshold with
  | none => simp [hloop] at h
  | some r =>
  cases r with
  | error e => simp [hloop] at h
  | ok v =>
  obtain ⟨p1, t1, i1, levs⟩ := v
  simp only [hloop] at h
  have hpl := priceLoop_ok _ _ _ _ _ _ _ _ _ hloop
  split at h
  next e heq => simp at h
  next s4 lockEvs heq =>
  have hs4 : s4.tokenPrice = p1 ∧ s4.incrementThreshold = i1 ∧
      (∀ u, s4.userLockedTokens u = s.userLockedTokens u ∨
        ∃ amt L1, 0 < amt ∧ lockMerge (s.userLockedTokens u) amt now = .ok L1 ∧
          s4.userLockedTokens u = L1) := by
    by_cases hbuy : 0 < tokensToBuy
    · rw [if_pos hbuy] at heq
      cases hlk : lockTokensForUser buyer tokensToBuy now
          { s with tokenSold := sold1, totalUsdGathered := usd1, tokenPrice := p1,
                   threshold := t1, incrementThreshold := i1 } with
      | error e2 => simp [hlk] at heq
      | ok v2 =>
        obtain ⟨s5, evs5⟩ := v2
        simp only [hlk, Except.ok.injEq, Prod.mk.injEq] at heq
        obtain ⟨hs5, hevs5⟩ := heq
        subst hs5
        obtain ⟨hu, hamt, L1, hmerge, hset⟩ := lockTokensForUser_ok _ _ _ _ _ _ hlk
        subst hset
        refine ⟨rfl, rfl, fun u => ?_⟩
        by_cases hub : u = buyer
        · subst hub
          right
          exact ⟨tokensToBuy, L1, hamt, hmerge, by simp [setLock]⟩
        · left
          simp [setLock, hub]
    · rw [if_neg hbuy] at heq
      simp only [Except.ok.injEq, Prod.mk.injEq] at heq
      obtain ⟨hs5, hevs5⟩ := heq
      subst hs5
      exact ⟨rfl, rfl, fun u => Or.inl rfl⟩
  obtain ⟨hsp, hsi, hsl⟩ := hs4
  split at h
  next hdon =>
    cases hdn : cadd s4.totalDonations donation with
    | error e2 => simp [hdn] at h
    | ok don1 =>
      simp only [hdn, RawResult.mk.injEq] at h
      obtain ⟨h1, h2, h3⟩ := h
      subst h1
      refine ⟨by simp [hsp]; omega, by simp [hsi]; intro hz; exact hpl.2 hz, fun u => ?_⟩
      simpa using hsl u
  next hdon =>
    simp only [RawResult.mk.injEq] at h
    obtain ⟨h1, h2, h3⟩ := h
    subst h1
    exact ⟨by rw [hsp]; exact hpl.1, by rw [hsi]; exact hpl.2, hsl⟩

/-- The typed guard rejections of `releaseZKTC` (inactive sale, zero amounts,
zero buyer, empty pool, insufficient supply) are all raised before the first
storage write: whenever the raw execution stops with one of them, the storage
it reports is exactly the pre-state. -/
theorem releaseZKTCRaw_guard_err (now amount buyer donationAmount : Nat)
    (s s1 : DCOState) (evs : List Event) (e : SolError)
    (h : releaseZKTCRaw now amount buyer donationAmount s = ⟨s1, evs, some e⟩)
    (he : e = .DCONotActive ∨ e = .AmountMustBeGreaterThanZero ∨ e = .InvalidAddress ∨
          e = .NoTokensRemaining ∨ e = .InsufficientTokens) :
    s1 = s := by
  unfold releaseZKTCRaw at h
  split at h
  · simp only [RawResult.mk.injEq, Option.some.injEq] at h
    exact h.1.symm
  split at h
  · simp only [RawResult.mk.injEq, Option.some.injEq] at h
    exact h.1.symm
  split at h
  next hbuyer =>
    simp only [RawResult.mk.injEq, Option.some.injEq] at h
    exact h.1.symm
  next hbuyer =>
  cases hm1 : cmul amount SCALE with
  | error e2 =>
    simp only [hm1, RawResult.mk.injEq, Option.some.injEq] at h
    exact h.1.symm
  | ok m1 =>
  simp only [hm1] at h
  cases hd1 : cdiv m1 s.tokenPrice with
  | error e2 =>
    simp only [hd1, RawResult.mk.injEq, Option.some.injEq] at h
    exact h.1.symm
  | ok tokensToBuy =>
  simp only [hd1] at h
  cases hm2 : cmul donationAmount SCALE with
  | error e2 =>
    simp only [hm2, RawResult.mk.injEq, Option.some.injEq] at h
    exact h.1.symm
  | ok m2 =>
  simp only [hm2] at h
  cases hd2 : cdiv m2 s.tokenPrice with
  | error e2 =>
    simp only [hd2, RawResult.mk.injEq, Option.some.injEq] at h
    exact h.1.symm
  | ok donation =>
  simp only [hd2] at h
  split at h
  · simp only [RawResult.mk.injEq, Option.some.injEq] at h
    exact h.1.symm
  cases hav : getAvailableForWithdrawal s with
  | error e2 =>
    simp only [hav, RawResult.mk.injEq, Option.some.injEq] at h
    exact h.1.symm
  | ok avail =>
  simp only [hav] at h
  cases hout : cadd tokensToBuy donation with
  | error e2 =>
    simp only [hout, RawResult.mk.injEq, Option.some.injEq] at h
    exact h.1.symm
  | ok outAmount =>
  simp only [hout] at h
  split at h
  · simp only [RawResult.mk.injEq, Option.some.injEq] at h
    exact h.1.symm
  cases hsold : cadd s.tokenSold outAmount with
  | error e2 =>
    simp only [hsold, RawResult.mk.injEq, Option.some.injEq] at h
    exact h.1.symm
  | ok sold1 =>
  simp only [hsold] at h
  cases href : cadd amount donationAmount with
  | error e2 =>
    simp only [href, RawResult.mk.injEq, Option.some.injEq] at h
    rw [cadd_eq_err] at href
    rw [← h.2.2, href.2] at he
    simp at he
  | ok refSum =>
  simp only [href] at h
  cases husd : cadd s.totalUsdGathered refSum with
  | error e2 =>
    simp only [husd, RawResult.mk.injEq, Option.some.injEq] at h
    rw [cadd_eq_err] at husd
    rw [← h.2.2, husd.2] at he
    simp at he
  | ok usd1 =>
  simp only [husd] at h
  cases hloop : priceLoop (usd1 / 1000000 + 2) (usd1 / 1000000)
      s.tokenPrice s.threshold s.incrementThreshold with
  | none =>
    simp only [hloop, RawResult.mk.injEq, Option.some.injEq] at h
    rw [← h.2.2] at he
    simp at he
  | some r =>
  cases r with
  | error e2 =>
    simp only [hloop, RawResult.mk.injEq, Option.some.injEq] at h
    have := priceLoop_err _ _ _ _ _ _ hloop
    rw [← h.2.2, this] at he
    simp at he
  | ok v =>
  obtain ⟨p1, t1, i1, levs⟩ := v
  simp only [hloop] at h
  split at h
  next e2 heq =>
    simp only [RawResult.mk.injEq, Option.some.injEq] at h
    have he2 : e2 = SolError.OverflowDetected := by
      by_cases hbuy : 0 < tokensToBuy
      · rw [if_pos hbuy] at heq
        cases hlk : lockTokensForUser buyer tokensToBuy now
            { s with tokenSold := sold1, totalUsdGathered := usd1, tokenPrice := p1,
                     threshold := t1, incrementThreshold := i1 } with
        | error e3 =>
          simp only [hlk, Except.error.injEq] at heq
          subst heq
          exact lockTokensForUser_err _ _ _ _ _ hbuyer (by omega) hlk
        | ok v2 => simp [hlk] at heq
      · rw [if_neg hbuy] at heq
        cases heq
    rw [← h.2.2, he2] at he
    simp at he
  next s4 lockEvs heq =>
  split at h
  next hdon =>
    cases hdn : cadd s4.totalDonations donation with
    | error e2 =>
      simp only [hdn, RawResult.mk.injEq, Option.some.injEq] at h
      rw [cadd_eq_err] at hdn
      rw [← h.2.2, hdn.2] at he
      simp at he
    | ok don1 => simp [hdn] at h
  next hdon => simp at h

/-- Success characterization of the raw `withdraw` execution: the global sale
counters are untouched and every lock entry keeps the claimed-below-amount
invariant (the call only ever sets a claimed counter equal to its tranche
amount). -/
theorem withdrawRaw_none_spec (now user : Nat) (s s1 : DCOState) (evs : List Event)
    (h : withdrawRaw now user s = ⟨s1, evs, none⟩) :
    s1.tokenPrice = s.tokenPrice ∧ s1.incrementThreshold = s.incrementThreshold ∧
    s1.tokenSold = s.tokenSold ∧ s1.totalDonations = s.totalDonations ∧
    (∀ a, LockInv (s.userLockedTokens a) → LockInv (s1.userLockedTokens a)) := by
  unfold withdrawRaw at h
  dsimp only at h
  split at h
  · simp at h
  next htot =>
  split at h
  next e heq => simp at h
  next w7 L1 heq =>
  have hL1 : (w7 = 0 ∧ L1 = s.userLockedTokens user) ∨
      L1 = { s.userLockedTokens user with
             sevenMonthClaimed := (s.userLockedTokens user).sevenMonthAmount } := by
    split at heq
    · cases hc : csub (s.userLockedTokens user).sevenMonthAmount
          (s.userLockedTokens user).sevenMonthClaimed with
      | error e2 => simp [hc] at heq
      | ok av =>
        simp only [hc] at heq
        split at heq
        · split at heq
          · cases heq
          · simp only [Except.ok.injEq, Prod.mk.injEq] at heq
            exact Or.inr heq.2.symm
        · simp only [Except.ok.injEq, Prod.mk.injEq] at heq
          exact Or.inl ⟨heq.1.symm, heq.2.symm⟩
    · simp only [Except.ok.injEq, Prod.mk.injEq] at heq
      exact Or.inl ⟨heq.1.symm, heq.2.symm⟩
  split at h
  next e heq2 => simp at h
  next w12 L2 heq2 =>
  have hL2 : (w12 = 0 ∧ L2 = L1) ∨
      L2 = { L1 with oneYearClaimed := L1.oneYearAmount } := by
    split at heq2
    · cases hc : csub L1.oneYearAmount L1.oneYearClaimed with
      | error e2 => simp [hc] at heq2
      | ok av =>
        simp only [hc] at heq2
        split at heq2
        · split at heq2
          · cases heq2
          · simp only [Except.ok.injEq, Prod.mk.injEq] at heq2
            exact Or.inr heq2.2.symm
        · simp only [Except.ok.injEq, Prod.mk.injEq] at heq2
          exact Or.inl ⟨heq2.1.symm, heq2.2.symm⟩
    · simp only [Except.ok.injEq, Prod.mk.injEq] at heq2
      exact Or.inl ⟨heq2.1.symm, heq2.2.symm⟩
  have hk1 : L1.totalAmount = (s.userLockedTokens user).totalAmount ∧
      (LockInv (s.userLockedTokens user) → LockInv L1) := by
    rcases hL1 with ⟨hw, h1⟩ | h1
    · subst h1
      exact ⟨rfl, id⟩
    · subst h1
      refine ⟨rfl, fun hI => ⟨le_refl _, hI.2.1, fun hz => absurd hz htot⟩⟩
  have hk2 : (LockInv (s.userLockedTokens user) → LockInv L2) := by
    rcases hL2 with ⟨hw, h2⟩ | h2
    · subst h2
      exact hk1.2
    · subst h2
      intro hI
      have hI1 := hk1.2 hI
      refine ⟨hI1.1, le_refl _, fun hz => ?_⟩
      rw [hk1.1] at hz
      exact absurd hz htot
  cases hw : cadd w7 w12 with
  | error e2 => simp [hw] at h
  | ok tw =>
  simp only [hw] at h
  generalize hS : (if 0 < w12 then
      setLock (if 0 < w7 then setLock s user L1 else s) user L2
    else (if 0 < w7 then setLock s user L1 else s)) = sPre at h
  split at h
  · simp at h
  split at h
  · simp at h
  split at h
  · simp at h
  cases hm : cadd L2.lockTimestamp s.ONE_YEAR with
  | error e2 => simp [hm] at h
  | ok fullMark =>
  simp only [hm, RawResult.mk.injEq] at h
  obtain ⟨h1, h2, h3⟩ := h
  subst h1
  have hf1 : sPre.tokenPrice = s.tokenPrice := by
    rw [← hS]
    by_cases hc12 : 0 < w12 <;> by_cases hc7 : 0 < w7 <;> simp [hc12, hc7, setLock]
  have hf2 : sPre.incrementThreshold = s.incrementThreshold := by
    rw [← hS]
    by_cases hc12 : 0 < w12 <;> by_cases hc7 : 0 < w7 <;> simp [hc12, hc7, setLock]
  have hf3 : sPre.tokenSold = s.tokenSold := by
    rw [← hS]
    by_cases hc12 : 0 < w12 <;> by_cases hc7 : 0 < w7 <;> simp [hc12, hc7, setLock]
  have hf4 : sPre.totalDonations = s.totalDonations := by
    rw [← hS]
    by_cases hc12 : 0 < w12 <;> by_cases hc7 : 0 < w7 <;> simp [hc12, hc7, setLock]
  have hlocks : ∀ a, LockInv (s.userLockedTokens a) → LockInv (sPre.userLockedTokens a) := by
    intro a hI
    by_cases ha : a = user
    · rw [ha] at hI ⊢
      have hv : sPre.userLockedTokens user = s.userLockedTokens user ∨
          sPre.userLockedTokens user = L1 ∨ sPre.userLockedTokens user = L2 := by
        rw [← hS]
        by_cases hc12 : 0 < w12 <;> by_cases hc7 : 0 < w7 <;> simp [hc12, hc7, setLock]
      rcases hv with hv | hv | hv <;> rw [hv]
      · exact hI
      · exact hk1.2 hI
      · exact hk2 hI
    · have hv : sPre.userLockedTokens a = s.userLockedTokens a := by
        rw [← hS]
        by_cases hc12 : 0 < w12 <;> by_cases hc7 : 0 < w7 <;> simp [hc12, hc7, setLock, ha]
      rw [hv]
      exact hI
  exact ⟨hf1, hf2, hf3, hf4, hlocks⟩

/-- Master success characterization of one interface call: every entry point
except `setTokenPrice` leaves the price no lower, every entry point keeps a
positive `incrementThreshold` positive, and every entry point except
`UpdateAllocations` preserves the per-user claimed-within-amount invariant. -/
theorem step_ok_spec (o : Op) (now : Nat) (s s1 : DCOState) (evs : List Event)
    (h : step o now s = .ok (s1, evs)) :
    ((∀ p, o ≠ Op.setTokenPrice p) → s.tokenPrice ≤ s1.tokenPrice) ∧
    (1 ≤ s.incrementThreshold → 1 ≤ s1.incrementThreshold) ∧
    ((∀ u a, o ≠ Op.updateAllocations u a) →
      ∀ a, LockInv (s.userLockedTokens a) → LockInv (s1.userLockedTokens a)) := by
  cases o with
  | setTokenPrice p =>
    simp only [step] at h
    unfold setTokenPrice at h
    split at h
    · cases h
    · simp only [Except.ok.injEq, Prod.mk.injEq] at h
      obtain ⟨h1, _⟩ := h
      subst h1
      exact ⟨fun hno => absurd rfl (hno p), fun hz => hz, fun _ a hI => hI⟩
  | setDCOEndTime t =>
    simp only [step] at h
    unfold setDCOEndTime at h
    simp only [Except.ok.injEq, Prod.mk.injEq] at h
    obtain ⟨h1, _⟩ := h
    subst h1
    exact ⟨fun _ => le_refl _, fun hz => hz, fun _ a hI => hI⟩
  | injectSupply a0 =>
    simp only [step] at h
    unfold injectSupply at h
    split at h
    · cases h
    · cases hb : cadd s.zkBalance a0 with
      | error e => simp [hb] at h
      | ok b =>
        simp only [hb, Except.ok.injEq, Prod.mk.injEq] at h
        obtain ⟨h1, _⟩ := h
        subst h1
        exact ⟨fun _ => le_refl _, fun hz => hz, fun _ a hI => hI⟩
  | setWalletAddresses b e so =>
    simp only [step] at h
    unfold setWalletAddresses at h
    split at h
    · cases h
    split at h
    · cases h
    split at h
    · cases h
    simp only [Except.ok.injEq, Prod.mk.injEq] at h
    obtain ⟨h1, _⟩ := h
    subst h1
    exact ⟨fun _ => le_refl _, fun hz => hz, fun _ a hI => hI⟩
  | updatePriceThresholds p =>
    simp only [step] at h
    unfold updatePriceThresholds at h
    split at h
    · cases h
    next hp =>
      simp only [Except.ok.injEq, Prod.mk.injEq] at h
      obtain ⟨h1, _⟩ := h
      subst h1
      exact ⟨fun _ => le_refl _, fun _ => by show 1 ≤ p; omega, fun _ a hI => hI⟩
  | updateThreshold t =>
    simp only [step] at h
    unfold updateThreshold at h
    simp only [Except.ok.injEq, Prod.mk.injEq] at h
    obtain ⟨h1, _⟩ := h
    subst h1
    exact ⟨fun _ => le_refl _, fun hz => hz, fun _ a hI => hI⟩
  | updateUsdtGathered u =>
    simp only [step] at h
    unfold updateUsdtGathered at h
    simp only [Except.ok.injEq, Prod.mk.injEq] at h
    obtain ⟨h1, _⟩ := h
    subst h1
    exact ⟨fun _ => le_refl _, fun hz => hz, fun _ a hI => hI⟩
  | updateZCW z =>
    simp only [step] at h
    unfold updateZCW at h
    split at h
    · cases h
    · simp only [Except.ok.injEq, Prod.mk.injEq] at h
      obtain ⟨h1, _⟩ := h
      subst h1
      exact ⟨fun _ => le_refl _, fun hz => hz, fun _ a hI => hI⟩
  | setTimePeriods a b =>
    simp only [step] at h
    unfold setTimePeriods at h
    simp only [Except.ok.injEq, Prod.mk.injEq] at h
    obtain ⟨h1, _⟩ := h
    subst h1
    exact ⟨fun _ => le_refl _, fun hz => hz, fun _ a hI => hI⟩
  | releaseZKTC a b d =>
    simp only [step] at h
    unfold releaseZKTC at h
    split at h
    next s2 evs2 heq =>
      simp only [Except.ok.injEq, Prod.mk.injEq] at h
      obtain ⟨h1, _⟩ := h
      subst h1
      obtain ⟨hp, hi, hl⟩ := releaseZKTCRaw_none_spec _ _ _ _ _ _ _ heq
      refine ⟨fun _ => hp, hi, fun _ a hI => ?_⟩
      rcases hl a with hv | ⟨amt, L1, hamt, hmerge, hv⟩
      · rw [hv]
        exact hI
      · rw [hv]
        exact lockMerge_inv _ _ _ _ hI hamt hmerge
    next e heq => cases h
  | donateToZCW =>
    simp only [step] at h
    unfold DonateToZCW at h
    split at h
    · cases h
    split at h
    · cases h
    simp only [Except.ok.injEq, Prod.mk.injEq] at h
    obtain ⟨h1, _⟩ := h
    subst h1
    exact ⟨fun _ => le_refl _, fun hz => hz, fun _ a hI => hI⟩
  | updateAllocations u a0 =>
    simp only [step] at h
    unfold UpdateAllocations at h
    refine ⟨fun _ => ?_, fun hz => ?_, fun hno => absurd rfl (hno u a0)⟩ <;>
    · cases hm : cmul a0 SCALE with
      | error e => simp [hm] at h
      | ok m =>
        simp only [hm] at h
        obtain ⟨hu, hamt, L1, hmerge, hset⟩ := lockTokensForUser_ok _ _ _ _ _ _ h
        subst hset
        simp [setLock]
        try omega
  | withdraw u =>
    simp only [step] at h
    unfold withdraw at h
    split at h
    next s2 evs2 heq =>
      simp only [Except.ok.injEq, Prod.mk.injEq] at h
      obtain ⟨h1, _⟩ := h
      subst h1
      obtain ⟨hp, hi, _, _, hl⟩ := withdrawRaw_none_spec _ _ _ _ _ heq
      exact ⟨fun _ => le_of_eq hp.symm, fun hz => by omega, fun _ => hl⟩
    next e heq => cases h
  | withdrawParticularZKTC a0 =>
    simp only [step] at h
    unfold withdrawParticularZKTC at h
    split at h
    · cases h
    split at h
    · cases h
    split at h
    · cases h
    cases hav : getAvailableForWithdrawal s with
    | error e => simp [hav] at h
    | ok avail =>
      simp only [hav] at h
      split at h
      · cases h
      split at h
      · cases h
      simp only [Except.ok.injEq, Prod.mk.injEq] at h
      obtain ⟨h1, _⟩ := h
      subst h1
      exact ⟨fun _ => le_refl _, fun hz => hz, fun _ a hI => hI⟩
  | withdrawAllZKTC =>
    simp only [step] at h
    unfold withdrawAllZKTC at h
    split at h
    · cases h
    cases hav : getAvailableForWithdrawal s with
    | error e => simp [hav] at h
    | ok avail =>
      simp only [hav] at h
      split at h
      · cases h
      split at h
      · cases h
      simp only [Except.ok.injEq, Prod.mk.injEq] at h
      obtain ⟨h1, _⟩ := h
      subst h1
      exact ⟨fun _ => le_refl _, fun hz => hz, fun _ a hI => hI⟩

theorem StateInv_initState (o p z t : Nat) : StateInv (initState o p z t) :=
  fun _ => ⟨Nat.le_refl 0, Nat.le_refl 0, fun _ => ⟨rfl, rfl⟩⟩

/-- Claim C1 (code bug): the specified invariant
`tokenSold <= balance - totalDonations` is violated by the code on a concrete
reachable trace.  Deploy at price 500, inject `10^18` tokens, then allocate a
pure donation of 500 reference units: `releaseZKTC` adds the `10^18` donation
tokens to `tokenSold` *and* to `totalDonations`, so afterwards
`tokenSold = zkBalance = totalDonations = 10^18` and the claimed inequality
fails (`getAvailableForWithdrawal` reverts with an arithmetic underflow). -/
theorem C1_invariant_violated_on_reachable_trace :
    stepErr (Op.injectSupply (10 ^ 18)) 0 tr1_0 = none ∧
    stepErr (Op.releaseZKTC 0 1 500) 0 tr1_1 = none ∧
    tr1_2.tokenSold = 10 ^ 18 ∧
    tr1_2.zkBalance = 10 ^ 18 ∧
    tr1_2.totalDonations = 10 ^ 18 ∧
    getAvailableForWithdrawal tr1_2 = .error SolError.panicUnderflow ∧
    ¬(tr1_2.tokenSold ≤ tr1_2.zkBalance - tr1_2.totalDonations) :=
  ⟨rfl, rfl, rfl, rfl, rfl, rfl, by decide⟩

/-- Claim C2 (code bug): on a reachable state with `totalDonations = 5000`
the donation flush `DonateToZCW` does transfer exactly 5000 tokens to the
configured charity address and does reset the counter, but it emits
`ZCWDonated` *after* zeroing `totalDonations`, so the event reports amount 0,
not 5000 as the claim requires. -/
theorem C2_flush_transfers_all_but_event_reports_zero :
    tr2_2.totalDonations = 5000 ∧
    step Op.donateToZCW 7 tr2_2 =
      .ok ({ tr2_2 with zkBalance := 0, totalDonations := 0 },
           [Event.transfer 3 5000, Event.ZCWDonated 0 7]) ∧
    (0 : Nat) ≠ 5000 :=
  ⟨rfl, rfl, by decide⟩

/-- Claim C3 counterexample: after both tranches are fully claimed, a further
`withdraw` at a time past the one-year mark does *not* fail: it succeeds,
transfers 0 tokens and emits a `TokensWithdrawn` event (no error named
`NothingToWithdraw` exists in the contract). -/
theorem C3_counterexample_fully_claimed_withdraw_succeeds :
    stepErr (Op.injectSupply 100) 0 tr3_0 = none ∧
    stepErr (Op.releaseZKTC 100 1 0) 0 tr3_1 = none ∧
    stepErr (Op.withdraw 1) oneYearMark tr3_2 = none ∧
    (tr3_3.userLockedTokens 1).totalAmount = 100 ∧
    (tr3_3.userLockedTokens 1).sevenMonthClaimed = (tr3_3.userLockedTokens 1).sevenMonthAmount ∧
    (tr3_3.userLockedTokens 1).oneYearClaimed = (tr3_3.userLockedTokens 1).oneYearAmount ∧
    stepErr (Op.withdraw 1) oneYearMark tr3_3 = none ∧
    stepEvents (Op.withdraw 1) oneYearMark tr3_3 =
      [Event.transfer 1 0, Event.TokensWithdrawnUser 1 0 2] ∧
    (stepOk (Op.withdraw 1) oneYearMark tr3_3).zkBalance = tr3_3.zkBalance :=
  ⟨rfl, rfl, rfl, rfl, rfl, rfl, rfl, rfl, rfl⟩

/-- Claim C3 amended: for a user whose lock has `totalAmount > 0` and both
tranches fully claimed (with the seven-month mark not after the one-year
mark, and no overflow in the event arithmetic): a further `withdraw` before
`SEVEN_MONTHS` reverts with `SevenMonthReleaseNotAvailable`; between the two
marks it reverts with `OneYearReleaseNotAvailable`; at or past `ONE_YEAR` it
*succeeds*, transferring 0 tokens and leaving the balance and every lock
unchanged.  No `NothingToWithdraw` error exists. -/
theorem C3_amended_fully_claimed_withdraw_behavior (now user : Nat) (s : DCOState)
    (hpos : 0 < (s.userLockedTokens user).totalAmount)
    (h7 : (s.userLockedTokens user).sevenMonthClaimed =
          (s.userLockedTokens user).sevenMonthAmount)
    (h1y : (s.userLockedTokens user).oneYearClaimed =
           (s.userLockedTokens user).oneYearAmount)
    (hsane : s.SEVEN_MONTHS ≤ s.ONE_YEAR)
    (hts : (s.userLockedTokens user).lockTimestamp + s.ONE_YEAR ≤ MAXU) :
    (now < s.SEVEN_MONTHS →
      withdraw now user s = .error SolError.SevenMonthReleaseNotAvailable) ∧
    (s.SEVEN_MONTHS ≤ now → now < s.ONE_YEAR →
      withdraw now user s = .error SolError.OneYearReleaseNotAvailable) ∧
    (s.ONE_YEAR ≤ now →
      ∃ s1 evs, withdraw now user s = .ok (s1, evs) ∧
        Event.transfer user 0 ∈ evs ∧
        s1.zkBalance = s.zkBalance ∧
        (∀ a, s1.userLockedTokens a = s.userLockedTokens a)) := by
  have hc7 : csub (s.userLockedTokens user).sevenMonthAmount
      (s.userLockedTokens user).sevenMonthClaimed = .ok 0 := by
    rw [h7, csub_eq_ok]
    omega
  have hc1y : csub (s.userLockedTokens user).oneYearAmount
      (s.userLockedTokens user).oneYearClaimed = .ok 0 := by
    rw [h1y, csub_eq_ok]
    omega
  have h0 : ¬((s.userLockedTokens user).totalAmount = 0) := by omega
  have hz : cadd 0 0 = Except.ok 0 := rfl
  refine ⟨fun hlt => ?_, fun hge hlt => ?_, fun hge => ?_⟩
  · have hns : ¬ s.SEVEN_MONTHS ≤ now := by omega
    by_cases h12 : s.ONE_YEAR ≤ now <;>
      simp [withdraw, withdrawRaw, h0, hns, h12, hc1y, hlt, hz]
  · have h12 : ¬ s.ONE_YEAR ≤ now := by omega
    have hn7 : ¬ now < s.SEVEN_MONTHS := by omega
    simp [withdraw, withdrawRaw, h0, hge, h12, hn7, hc7, hlt, hz]
  · have h7le : s.SEVEN_MONTHS ≤ now := by omega
    have hn7 : ¬ now < s.SEVEN_MONTHS := by omega
    have hn12 : ¬ now < s.ONE_YEAR := by omega
    have hm : cadd (s.userLockedTokens user).lockTimestamp s.ONE_YEAR =
        .ok ((s.userLockedTokens user).lockTimestamp + s.ONE_YEAR) := by
      rw [cadd_eq_ok]
      omega
    refine ⟨{ s with zkBalance := s.zkBalance - 0 },
            [Event.transfer user 0, Event.TokensWithdrawnUser user 0
              (if (s.userLockedTokens user).lockTimestamp + s.ONE_YEAR ≤ now then 2 else 1)],
            ?_, by simp, by simp, fun a => rfl⟩
    simp [withdraw, withdrawRaw, h0, h7le, hge, hn7, hn12, hc7, hc1y, hm, hz]

/-- Witness for C3: a concrete fully-claimed lock at a time past the one-year
mark on which the amended theorem applies. -/
theorem C3_amended_fully_claimed_withdraw_behavior_witness :
    0 < (c3WitnessState.userLockedTokens 1).totalAmount ∧
    c3WitnessState.SEVEN_MONTHS ≤ c3WitnessState.ONE_YEAR ∧
    c3WitnessState.ONE_YEAR ≤ 250 ∧
    (∃ s1 evs, withdraw 250 1 c3WitnessState = .ok (s1, evs) ∧
      Event.transfer 1 0 ∈ evs ∧
      s1.zkBalance = c3WitnessState.zkBalance ∧
      (∀ a, s1.userLockedTokens a = c3WitnessState.userLockedTokens a)) :=
  ⟨by decide, by decide, by decide,
   (C3_amended_fully_claimed_withdraw_behavior 250 1 c3WitnessState (by decide) (by decide) (by decide)
      (by decide) (by decide)).2.2 (by decide)⟩

/-- Claim C4 counterexample: `UpdateAllocations` violates
`sevenMonthClaimed <= sevenMonthAmount` on a reachable trace.  Sell
`4 * 10^18` tokens to buyer 1, let them claim the seven-month tranche
(`2 * 10^18`), then call `UpdateAllocations(1, 1)`: the lock is re-initialized
to tranche amounts of `5 * 10^17` while `sevenMonthClaimed` stays `2 * 10^18`,
so the invariant fails. -/
theorem C4_counterexample_UpdateAllocations_breaks_claim_bounds :
    stepErr (Op.injectSupply (4 * 10 ^ 18)) 0 tr4_0 = none ∧
    stepErr (Op.releaseZKTC 2000 1 0) 0 tr4_1 = none ∧
    stepErr (Op.withdraw 1) sevenMonthMark tr4_2 = none ∧
    stepErr (Op.updateAllocations 1 1) sevenMonthMark tr4_3 = none ∧
    (tr4_4.userLockedTokens 1).sevenMonthAmount = 5 * 10 ^ 17 ∧
    (tr4_4.userLockedTokens 1).sevenMonthClaimed = 2 * 10 ^ 18 ∧
    ¬ StateInv tr4_4 :=
  ⟨rfl, rfl, rfl, rfl, rfl, rfl, fun hS =>
    (by decide : ¬((tr4_4.userLockedTokens 1).sevenMonthClaimed ≤
        (tr4_4.userLockedTokens 1).sevenMonthAmount)) (hS 1).1⟩

/-- Claim C4 amended: in every state reachable by any sequence of interface
calls that never uses `UpdateAllocations`, every user satisfies
`sevenMonthClaimed <= sevenMonthAmount` and `oneYearClaimed <= oneYearAmount`.
`UpdateAllocations` itself can break the bounds because its re-initialization
path does not reset the claimed counters. -/
theorem C4_amended_claim_bounds_invariant_without_UpdateAllocations (s : DCOState) (hs : ReachableNoUpd s) : StateInv s := by
  induction hs with
  | init o p z t ho hp hz => exact StateInv_initState o p z t
  | next o now s s1 evs hno hs h ih =>
    exact fun a => (step_ok_spec o now s s1 evs h).2.2 hno a (ih a)

/-- Witness for C4: the amended theorem applied to a freshly deployed
state. -/
theorem C4_amended_claim_bounds_invariant_without_UpdateAllocations_witness : StateInv (initState 1 500 3 0) :=
  C4_amended_claim_bounds_invariant_without_UpdateAllocations (initState 1 500 3 0)
    (ReachableNoUpd.init 1 500 3 0 (by decide) (by decide) (by decide))

/-- Claim C5 counterexample: on a reachable state with balance 100, no
donations and all 100 tokens sold (locked), `getQuote(50, 0)` returns 50
although the unallocated non-donated balance is 0 (the clamp uses
`balance - totalDonations` and ignores `tokenSold`), and `getQuote(0, 500)`
returns a donation leg of 500 tokens, exceeding even the full balance (the
pure-donation path is never clamped). -/
theorem C5_counterexample_quote_exceeds_available :
    tr3_2.zkBalance = 100 ∧ tr3_2.totalDonations = 0 ∧ tr3_2.tokenSold = 100 ∧
    getQuote 50 0 tr3_2 = .ok (50, 0) ∧
    tr3_2.zkBalance - tr3_2.totalDonations - tr3_2.tokenSold = 0 ∧
    getQuote 0 500 tr3_2 = .ok (0, 500) ∧
    ¬(500 ≤ tr3_2.zkBalance - tr3_2.totalDonations) :=
  ⟨rfl, rfl, rfl, rfl, rfl, rfl, by decide⟩

/-- Claim C5 amended: when the purchase amount is nonzero, the price is
nonzero, `availableTokens = balance - totalDonations` is nonzero, the
donation leg fits into `availableTokens`, and no intermediate overflow
occurs, `getQuote` returns a pair whose sum is at most
`balance - totalDonations` (not minus `tokenSold`), reduces only the
purchase leg, makes the sum fit exactly when clamping, and never reduces the
donation leg. -/
theorem C5_amended_quote_clamp (usdt don : Nat) (s : DCOState)
    (hu : usdt ≠ 0) (hp : s.tokenPrice ≠ 0)
    (hd : s.totalDonations ≤ s.zkBalance)
    (havail : s.zkBalance - s.totalDonations ≠ 0)
    (hmul1 : usdt * SCALE ≤ MAXU) (hmul2 : don * SCALE ≤ MAXU)
    (hdon : don * SCALE / s.tokenPrice ≤ s.zkBalance - s.totalDonations)
    (hsum : usdt * SCALE / s.tokenPrice + don * SCALE / s.tokenPrice ≤ MAXU) :
    ∃ t, getQuote usdt don s = .ok (t, don * SCALE / s.tokenPrice) ∧
      t + don * SCALE / s.tokenPrice ≤ s.zkBalance - s.totalDonations ∧
      (s.zkBalance - s.totalDonations <
          usdt * SCALE / s.tokenPrice + don * SCALE / s.tokenPrice →
        t + don * SCALE / s.tokenPrice = s.zkBalance - s.totalDonations) ∧
      (usdt * SCALE / s.tokenPrice + don * SCALE / s.tokenPrice ≤
          s.zkBalance - s.totalDonations →
        t = usdt * SCALE / s.tokenPrice) := by
  have hm1 : cmul usdt SCALE = .ok (usdt * SCALE) := by
    unfold cmul
    rw [if_pos hmul1]
  have hq1 : cdiv (usdt * SCALE) s.tokenPrice = .ok (usdt * SCALE / s.tokenPrice) := by
    unfold cdiv
    rw [if_neg hp]
  have hm2 : cmul don SCALE = .ok (don * SCALE) := by
    unfold cmul
    rw [if_pos hmul2]
  have hq2 : cdiv (don * SCALE) s.tokenPrice = .ok (don * SCALE / s.tokenPrice) := by
    unfold cdiv
    rw [if_neg hp]
  have hsub : csub s.zkBalance s.totalDonations = .ok (s.zkBalance - s.totalDonations) := by
    rw [csub_eq_ok]
    omega
  have hca : cadd (usdt * SCALE / s.tokenPrice) (don * SCALE / s.tokenPrice) =
      .ok (usdt * SCALE / s.tokenPrice + don * SCALE / s.tokenPrice) := by
    rw [cadd_eq_ok]
    omega
  unfold getQuote
  rw [if_neg (show ¬(usdt = 0 ∧ don = 0) from fun hc => hu hc.1)]
  rw [if_neg hp]
  simp only [hm1]
  simp only [hq1]
  simp only [hm2]
  simp only [hq2]
  rw [if_neg hu]
  simp only [hsub]
  rw [if_neg havail]
  simp only [hca]
  by_cases hclamp : s.zkBalance - s.totalDonations <
      usdt * SCALE / s.tokenPrice + don * SCALE / s.tokenPrice
  · rw [if_pos hclamp]
    have hcs : csub (s.zkBalance - s.totalDonations) (don * SCALE / s.tokenPrice) =
        .ok (s.zkBalance - s.totalDonations - don * SCALE / s.tokenPrice) := by
      rw [csub_eq_ok]
      omega
    simp only [hcs]
    refine ⟨s.zkBalance - s.totalDonations - don * SCALE / s.tokenPrice, rfl,
      by omega, fun _ => by omega, fun hle => by omega⟩
  · rw [if_neg hclamp]
    refine ⟨usdt * SCALE / s.tokenPrice, rfl, by omega,
      fun hlt => absurd hlt hclamp, fun _ => rfl⟩

/-- Witness for C5: the amended theorem applied to the all-sold trace state
with a 50-unit purchase and a 1-unit donation. -/
theorem C5_amended_quote_clamp_witness :
    (50 : Nat) ≠ 0 ∧ tr3_2.tokenPrice ≠ 0 ∧
    tr3_2.totalDonations ≤ tr3_2.zkBalance ∧
    (∃ t, getQuote 50 1 tr3_2 = .ok (t, 1 * SCALE / tr3_2.tokenPrice) ∧
      t + 1 * SCALE / tr3_2.tokenPrice ≤ tr3_2.zkBalance - tr3_2.totalDonations ∧
      (tr3_2.zkBalance - tr3_2.totalDonations <
          50 * SCALE / tr3_2.tokenPrice + 1 * SCALE / tr3_2.tokenPrice →
        t + 1 * SCALE / tr3_2.tokenPrice = tr3_2.zkBalance - tr3_2.totalDonations) ∧
      (50 * SCALE / tr3_2.tokenPrice + 1 * SCALE / tr3_2.tokenPrice ≤
          tr3_2.zkBalance - tr3_2.totalDonations →
        t = 50 * SCALE / tr3_2.tokenPrice)) :=
  ⟨by decide, by decide, by decide,
   C5_amended_quote_clamp 50 1 tr3_2 (by decide) (by decide) (by decide) (by decide)
     (by decide) (by decide) (by decide) (by decide)⟩

/-- Claim C6 counterexample: not every check precedes every state mutation.
After `UpdateAllocations(1, 100)` grants a `100 * 10^18` lock while the
contract balance is zero (reachable), a `withdraw` at the seven-month mark
writes `sevenMonthClaimed := 50 * 10^18` and only then fails the
`InsufficientBalance` check, so the raw (pre-rollback) storage at the failure
point differs from the pre-state; the transactional call still returns the
error. -/
theorem C6_counterexample_withdraw_mutates_before_balance_check :
    stepErr (Op.updateAllocations 1 100) 0 tr6_0 = none ∧
    (withdrawRaw sevenMonthMark 1 tr6_1).err = some SolError.InsufficientBalance ∧
    ((withdrawRaw sevenMonthMark 1 tr6_1).state.userLockedTokens 1).sevenMonthClaimed =
      50 * 10 ^ 18 ∧
    (tr6_1.userLockedTokens 1).sevenMonthClaimed = 0 ∧
    (withdrawRaw sevenMonthMark 1 tr6_1).state.userLockedTokens 1 ≠
      tr6_1.userLockedTokens 1 ∧
    withdraw sevenMonthMark 1 tr6_1 = .error SolError.InsufficientBalance :=
  ⟨rfl, rfl, rfl, rfl, by decide, rfl⟩

/-- Claim C6 amended: the typed guard rejections of allocate (`releaseZKTC`:
inactive sale period, zero amounts, zero buyer, empty pool, insufficient
supply) are all raised before the first storage write, so those failures
leave the raw storage byte-for-byte unchanged; and for any failure of
`releaseZKTC` or `withdraw` (including `withdraw`'s `InsufficientBalance`
check, which runs after the claimed-counter writes) the EVM rollback restores
the pre-call state, so a failing call leaves the ledger unchanged. -/
theorem C6_amended_guard_checks_and_rollback :
    (∀ now amount buyer donationAmount s s1 evs e,
      releaseZKTCRaw now amount buyer donationAmount s = ⟨s1, evs, some e⟩ →
      (e = SolError.DCONotActive ∨ e = SolError.AmountMustBeGreaterThanZero ∨
       e = SolError.InvalidAddress ∨ e = SolError.NoTokensRemaining ∨
       e = SolError.InsufficientTokens) → s1 = s) ∧
    (∀ now amount buyer donationAmount s e,
      (releaseZKTCRaw now amount buyer donationAmount s).err = some e →
      txState (releaseZKTCRaw now amount buyer donationAmount s) s = s) ∧
    (∀ now user s e, (withdrawRaw now user s).err = some e →
      txState (withdrawRaw now user s) s = s) :=
  ⟨fun now a b d s s1 evs e h he => releaseZKTCRaw_guard_err now a b d s s1 evs e h he,
   fun now a b d s e h => by unfold txState; rw [h],
   fun now u s e h => by unfold txState; rw [h]⟩

/-- Witness for C6: the guard conjunct applied to a `DCONotActive` rejection
on a fresh deployment. -/
theorem C6_amended_guard_checks_and_rollback_witness :
    (releaseZKTCRaw 10000000 5 7 0 tr1_0).err = some SolError.DCONotActive ∧
    (releaseZKTCRaw 10000000 5 7 0 tr1_0).state = tr1_0 :=
  ⟨rfl,
   C6_amended_guard_checks_and_rollback.1 10000000 5 7 0 tr1_0
     (releaseZKTCRaw 10000000 5 7 0 tr1_0).state
     (releaseZKTCRaw 10000000 5 7 0 tr1_0).events
     SolError.DCONotActive rfl (Or.inl rfl)⟩

/-- Claim C7 counterexample: `tokenPrice` is not non-decreasing over the
contract lifetime: from a reachable state with price 500, the interface call
`setTokenPrice(1)` succeeds and transitions to a state with the strictly
smaller price 1. -/
theorem C7_counterexample_setTokenPrice_decreases_price :
    tr1_0.tokenPrice = 500 ∧
    step (Op.setTokenPrice 1) 0 tr1_0 =
      .ok ({ tr1_0 with tokenPrice := 1 }, [Event.TokenPriceUpdated 500 1]) ∧
    ({ tr1_0 with tokenPrice := 1 } : DCOState).tokenPrice < tr1_0.tokenPrice :=
  ⟨rfl, rfl, by decide⟩

/-- Claim C7 amended: every interface operation other than `setTokenPrice`
never decreases `tokenPrice` (in particular the repricing loop inside
allocate only raises it); `setTokenPrice` may set any positive value,
including a lower one. -/
theorem C7_amended_price_nondecreasing_except_setTokenPrice (o : Op) (now : Nat) (s s1 : DCOState) (evs : List Event)
    (hno : ∀ p, o ≠ Op.setTokenPrice p) (h : step o now s = .ok (s1, evs)) :
    s.tokenPrice ≤ s1.tokenPrice :=
  (step_ok_spec o now s s1 evs h).1 hno

/-- Witness for C7: the amended theorem applied to an `injectSupply` call on
a fresh deployment. -/
theorem C7_amended_price_nondecreasing_except_setTokenPrice_witness :
    (∀ p, Op.injectSupply 7 ≠ Op.setTokenPrice p) ∧
    tr1_0.tokenPrice ≤ (stepOk (Op.injectSupply 7) 0 tr1_0).tokenPrice :=
  ⟨fun _ h => Op.noConfusion h,
   C7_amended_price_nondecreasing_except_setTokenPrice (Op.injectSupply 7) 0 tr1_0
     (stepOk (Op.injectSupply 7) 0 tr1_0) (stepEvents (Op.injectSupply 7) 0 tr1_0)
     (fun _ h => Op.noConfusion h) rfl⟩

/-- Claim C8 (confirmed): `updatePriceThresholds` rejects a zero increment
with `InvalidIncrementThreshold`; the tiered repricing loop finishes for any
positive increment whenever the gas bound dominates the distance from the
threshold to the normalized USD total, and in particular with the bound used
inside allocate; and `incrementThreshold` is at least 1 in every reachable
state, so the loop never runs with a zero increment. -/
theorem C8_repricing_loop_guarded_termination :
    (∀ s : DCOState, updatePriceThresholds 0 s = .error SolError.InvalidIncrementThreshold) ∧
    (∀ usdNorm price thr inc fuel, 1 ≤ inc → 1 ≤ fuel → usdNorm + 2 ≤ thr + fuel →
      priceLoop fuel usdNorm price thr inc ≠ none) ∧
    (∀ usd price thr inc, 1 ≤ inc →
      priceLoop (usd / 1000000 + 2) (usd / 1000000) price thr inc ≠ none) ∧
    (∀ s, Reachable s → 1 ≤ s.incrementThreshold) := by
  refine ⟨fun s => by unfold updatePriceThresholds; simp,
          fun usdNorm price thr inc fuel h1 h2 h3 =>
            priceLoop_term fuel usdNorm price thr inc h1 h2 h3,
          fun usd price thr inc h1 =>
            priceLoop_term _ _ _ _ _ h1 (by omega) (by omega),
          fun s hs => ?_⟩
  induction hs with
  | init o p z t ho hp hz => show (1 : Nat) ≤ 37500; omega
  | next o now s s1 evs hs h ih => exact (step_ok_spec o now s s1 evs h).2.1 ih

/-- Witness for C8: each conjunct of the termination theorem applied at
concrete inputs. -/
theorem C8_repricing_loop_guarded_termination_witness :
    updatePriceThresholds 0 tr1_0 = .error SolError.InvalidIncrementThreshold ∧
    (1 : Nat) ≤ 37500 ∧
    priceLoop 3 137501 500 137500 37500 ≠ none ∧
    1 ≤ (initState 1 500 3 0).incrementThreshold :=
  ⟨C8_repricing_loop_guarded_termination.1 tr1_0, by decide,
   C8_repricing_loop_guarded_termination.2.1 137501 500 137500 37500 3 (by decide) (by decide) (by decide),
   C8_repricing_loop_guarded_termination.2.2.2 (initState 1 500 3 0)
     (Reachable.init 1 500 3 0 (by decide) (by decide) (by decide))⟩

/-- Claim C9 (confirmed): for a fresh user and positive amounts `a` and `b`
that fit in a `uint256`, locking `a` then `b` yields a lock with the same
`totalAmount` as locking `a + b` at once, and the two tranche amounts agree
up to at most one unit (the halving rounding). -/
theorem C9_lock_merge_additive_split_agreement (a b t1 t2 : Nat) (ha : 1 ≤ a) (hb : 1 ≤ b) (hab : a + b ≤ MAXU) :
    lockMerge emptyLock a t1 = .ok ⟨a, a / 2, a - a / 2, 0, 0, t1⟩ ∧
    lockMerge ⟨a, a / 2, a - a / 2, 0, 0, t1⟩ b t2 =
      .ok ⟨a + b, a / 2 + b / 2, (a - a / 2) + (b - b / 2), 0, 0, t1⟩ ∧
    lockMerge emptyLock (a + b) t1 =
      .ok ⟨a + b, (a + b) / 2, (a + b) - (a + b) / 2, 0, 0, t1⟩ ∧
    (a / 2 + b / 2 ≤ (a + b) / 2 ∧ (a + b) / 2 ≤ a / 2 + b / 2 + 1) ∧
    ((a + b) - (a + b) / 2 ≤ ((a - a / 2) + (b - b / 2)) + 1 ∧
     (a - a / 2) + (b - b / 2) ≤ ((a + b) - (a + b) / 2) + 1) := by
  have hbM : b ≤ MAXU := by omega
  refine ⟨?_, ?_, ?_, by omega, by omega⟩
  · unfold lockMerge emptyLock
    dsimp only
    rw [if_neg (lt_irrefl 0)]
  · unfold lockMerge
    dsimp only
    rw [if_pos (show 0 < a by omega)]
    rw [if_neg (show ¬ MAXU - b < a by omega)]
    rw [if_neg (show ¬ MAXU - b / 2 < a / 2 by omega)]
    rw [if_neg (show ¬ MAXU - (b - b / 2) < a - a / 2 by omega)]
  · unfold lockMerge emptyLock
    dsimp only
    rw [if_neg (lt_irrefl 0)]

/-- Witness for C9: the merge-agreement theorem applied at `a = 3`,
`b = 5`. -/
theorem C9_lock_merge_additive_split_agreement_witness :
    (1 : Nat) ≤ 3 ∧ (1 : Nat) ≤ 5 ∧ 3 + 5 ≤ MAXU ∧
    lockMerge emptyLock 3 0 = .ok ⟨3, 3 / 2, 3 - 3 / 2, 0, 0, 0⟩ ∧
    lockMerge ⟨3, 3 / 2, 3 - 3 / 2, 0, 0, 0⟩ 5 9 =
      .ok ⟨3 + 5, 3 / 2 + 5 / 2, (3 - 3 / 2) + (5 - 5 / 2), 0, 0, 0⟩ ∧
    lockMerge emptyLock (3 + 5) 0 =
      .ok ⟨3 + 5, (3 + 5) / 2, (3 + 5) - (3 + 5) / 2, 0, 0, 0⟩ :=
  ⟨by decide, by decide, by decide,
   (C9_lock_merge_additive_split_agreement 3 5 0 9 (by decide) (by decide) (by decide)).1,
   (C9_lock_merge_additive_split_agreement 3 5 0 9 (by decide) (by decide) (by decide)).2.1,
   (C9_lock_merge_additive_split_agreement 3 5 0 9 (by decide) (by decide) (by decide)).2.2.1⟩

/-- Claim C10 (code bug): the read-only view and the state-changing
withdrawal disagree.  On a lock created at block time 10, at the global
seven-month mark `withdraw` pays out the 50-token seven-month tranche, while
`getWithdrawableAmount` returns 0, because the view gates each tranche on
`lockTimestamp + SEVEN_MONTHS` (an absolute timestamp added to the lock
time) whereas `withdraw` gates on `SEVEN_MONTHS` alone. -/
theorem C10_view_and_withdraw_disagree :
    getWithdrawableAmount sevenMonthMark 1 tr10_2 = .ok 0 ∧
    stepErr (Op.withdraw 1) sevenMonthMark tr10_2 = none ∧
    stepEvents (Op.withdraw 1) sevenMonthMark tr10_2 =
      [Event.transfer 1 50, Event.TokensWithdrawnUser 1 50 1] :=
  ⟨rfl, rfl, rfl⟩

end DCO
